import Mathlib

set_option maxHeartbeats 1000000

/-!
Shallow embedding of the safety-chat rate-limiting engine.

Sources embedded here:
- src/storage/storage.py (PluginPersistentStorage, RedisStorage)
- src/utils/rate_limiter_algorithms.py (the five algorithms)
- src/tools/rate_limiter_check.py (RateLimiterCheckTool)
- src/tools/rate_limiter_status.py (RateLimiterStatusTool)
- src/tools/base/rate_limiter_base.py (RateLimiterMixin)

Python floats and timestamps are modelled as rationals; Python ints as
integers.  Each storage-backed operation is modelled as an explicit
state-passing function on the storage contents.
-/

namespace SafetyChat

/-- Dynamic (Python-style) scalar value, used where the runtime type of a
field matters: a Python value is either a bool or a str here. -/
inductive PyVal where
  | pyBool : Bool → PyVal
  | pyStr : String → PyVal
  deriving DecidableEq, Repr

/-- Python int() applied to a float (here a rational): truncation toward
zero. -/
def pyInt (q : ℚ) : ℤ := if 0 ≤ q then ⌊q⌋ else ⌈q⌉

/-! Storage model (src/storage/storage.py).

PluginPersistentStorage serializes either the raw value (when set is called
with a falsy expire) or a wrapper carrying data and expire_at (truthy
expire).  Its get deletes and hides an entry whose expire_at has passed. -/

/-- A value as physically held by PluginPersistentStorage under one key. -/
inductive StoredVal (α : Type) where
  | raw : α → StoredVal α
  | wrapped : α → ℚ → StoredVal α
  deriving DecidableEq, Repr

/-- The physical contents of a single storage slot. -/
abbrev Cell (α : Type) : Type := Option (StoredVal α)

/-- PluginPersistentStorage.get restricted to one slot.  Returns the value
read and the slot after the call: an entry whose expire_at is ≤ now is
deleted and read as absent. -/
def pluginCellGet (cell : Cell α) (now : ℚ) : Option α × Cell α :=
  match cell with
  | none => (none, none)
  | some (.raw v) => (some v, some (.raw v))
  | some (.wrapped v ea) =>
      if ea ≤ now then (none, none) else (some v, some (.wrapped v ea))

/-- PluginPersistentStorage.set restricted to one slot.  A truthy expire
(a nonzero integer) wraps the value with expire_at = now + expire; a falsy
expire (None or 0) stores the raw value with no expiry information. -/
def pluginCellSet (v : α) (expire : Option ℤ) (now : ℚ) : Cell α :=
  match expire with
  | none => some (.raw v)
  | some e => if e = 0 then some (.raw v) else some (.wrapped v (now + (e : ℚ)))

/-- A keyed store of PluginPersistentStorage slots. -/
abbrev Store (α : Type) : Type := String → Cell α

/-- PluginPersistentStorage.get on a keyed store. -/
def pluginStoreGet (s : Store α) (k : String) (now : ℚ) : Option α × Store α :=
  let r := pluginCellGet (s k) now
  (r.1, fun k2 => if k2 = k then r.2 else s k2)

/-- PluginPersistentStorage.set on a keyed store. -/
def pluginStoreSet (s : Store α) (k : String) (v : α) (expire : Option ℤ)
    (now : ℚ) : Store α :=
  fun k2 => if k2 = k then pluginCellSet v expire now else s k2

/-- RedisStorage slot contents: setex stores with a backend TTL deadline,
set stores persistently. -/
inductive RedisVal (α : Type) where
  | persistent : α → RedisVal α
  | expiring : α → ℚ → RedisVal α
  deriving DecidableEq, Repr

/-- RedisStorage.set restricted to one slot: a truthy expire delegates the
TTL to the backend (setex), a falsy expire stores with no TTL (set). -/
def redisCellSet (v : α) (expire : Option ℤ) (now : ℚ) : Option (RedisVal α) :=
  match expire with
  | none => some (.persistent v)
  | some e => if e = 0 then some (.persistent v) else some (.expiring v (now + (e : ℚ)))

/-- RedisStorage.get restricted to one slot: the backend hides a key whose
TTL deadline has passed. -/
def redisCellGet (cell : Option (RedisVal α)) (now : ℚ) : Option α :=
  match cell with
  | none => none
  | some (.persistent v) => some v
  | some (.expiring v ea) => if ea ≤ now then none else some v

/-! Verdict shape (RateLimiterAlgorithm._build_response).  The reason and
reason_cn text fields are not modelled; no claim refers to them. -/

def RATE_LIMIT_OK : String := "rate_ok"
def RATE_LIMIT_NO_TOKENS : String := "rate_no_tokens"
def RATE_LIMIT_MAX_REQUESTS : String := "rate_max_req"
def RATE_LIMIT_QUEUE_FULL : String := "rate_queue_full"
def RATE_LIMIT_WINDOW_LIMIT : String := "rate_window"
def RATE_LIMIT_MULTIPLE : String := "rate_multi"
def TRUE_STRING : String := "true"
def FALSE_STRING : String := "false"

structure Verdict where
  allowed : PyVal
  remaining : ℤ
  reset_time : ℤ
  reason_code : String
  deriving DecidableEq, Repr

/-- RateLimiterAlgorithm._build_response: the allowed field receives the
string TRUE_STRING or FALSE_STRING (not a bool). -/
def buildResponse (allowed : Bool) (remaining : ℤ) (reset_time : ℤ)
    (reason_code : String) : Verdict :=
  { allowed := .pyStr (if allowed then TRUE_STRING else FALSE_STRING)
    remaining := remaining
    reset_time := reset_time
    reason_code := reason_code }

/-! Token bucket (TokenBucketAlgorithm). -/

structure TBParams where
  rate : ℚ
  capacity : ℤ
  deriving DecidableEq, Repr

structure TBData where
  tokens : ℚ
  last_refill : ℚ
  deriving DecidableEq, Repr

/-- Default state used when the key is absent. -/
def tbDefault (p : TBParams) (now : ℚ) : TBData :=
  { tokens := (p.capacity : ℚ), last_refill := now }

/-- Refill step: tokens = min(capacity, tokens + (now - last_refill) * rate). -/
def tbRefill (p : TBParams) (d : TBData) (now : ℚ) : ℚ :=
  min (p.capacity : ℚ) (d.tokens + (now - d.last_refill) * p.rate)

/-- TokenBucketAlgorithm.get_status. -/
def tokenBucketStatus (p : TBParams) (cell : Cell TBData) (now : ℚ) :
    Verdict × Cell TBData :=
  let r := pluginCellGet cell now
  let data := r.1.getD (tbDefault p now)
  let tokens := tbRefill p data now
  let allowed : Bool := decide (1 ≤ tokens)
  (buildResponse allowed (pyInt tokens) (pyInt (now + 1 / p.rate))
    (if allowed then RATE_LIMIT_OK else RATE_LIMIT_NO_TOKENS), r.2)

/-- TokenBucketAlgorithm.check: get_status first; when allowed, re-read,
refill, consume one token and write back with expire = int(1 / rate). -/
def tokenBucketCheck (p : TBParams) (cell : Cell TBData) (now : ℚ) :
    Verdict × Cell TBData :=
  let s := tokenBucketStatus p cell now
  if s.1.allowed = .pyStr TRUE_STRING then
    let r := pluginCellGet s.2 now
    let data := r.1.getD (tbDefault p now)
    let tokens := tbRefill p data now - 1
    (s.1, pluginCellSet { tokens := tokens, last_refill := now }
      (some (pyInt (1 / p.rate))) now)
  else
    (s.1, s.2)

/-- Folding check over a list of call instants gives the storage contents
reachable by a sequence of check calls on one key. -/
def tokenBucketRun (p : TBParams) (ts : List ℚ) (cell : Cell TBData) :
    Cell TBData :=
  ts.foldl (fun c t => (tokenBucketCheck p c t).2) cell

/-! Fixed window (FixedWindowAlgorithm).  The code works on
now = int(time.time()); the call instant t is the float clock value. -/

structure FWParams where
  max_requests : ℤ
  window_size : ℤ
  deriving DecidableEq, Repr

structure FWData where
  start : ℤ
  count : ℤ
  deriving DecidableEq, Repr

/-- window_start = now - (now % window_size). -/
def fwWindowStart (ws : ℤ) (now : ℤ) : ℤ := now - now % ws

/-- FixedWindowAlgorithm.get_status. -/
def fixedWindowStatus (p : FWParams) (cell : Cell FWData) (t : ℚ) :
    Verdict × Cell FWData :=
  let now := pyInt t
  let ws_start := fwWindowStart p.window_size now
  let r := pluginCellGet cell t
  let count : ℤ :=
    match r.1 with
    | none => 0
    | some d => if d.start ≠ ws_start then 0 else d.count
  let allowed : Bool := decide (count < p.max_requests)
  (buildResponse allowed (max 0 (p.max_requests - count))
    (ws_start + p.window_size)
    (if allowed then RATE_LIMIT_OK else RATE_LIMIT_MAX_REQUESTS), r.2)

/-- FixedWindowAlgorithm.check: when allowed, re-read, reset on window
mismatch, increment the count, and write back with
expire = window_start + window_size - now. -/
def fixedWindowCheck (p : FWParams) (cell : Cell FWData) (t : ℚ) :
    Verdict × Cell FWData :=
  let s := fixedWindowStatus p cell t
  if s.1.allowed = .pyStr TRUE_STRING then
    let now := pyInt t
    let ws_start := fwWindowStart p.window_size now
    let r := pluginCellGet s.2 t
    let data0 := r.1.getD { start := ws_start, count := 0 }
    let data1 := if data0.start ≠ ws_start then
        ({ start := ws_start, count := 0 } : FWData) else data0
    let data2 : FWData := { start := data1.start, count := data1.count + 1 }
    let expire := ws_start + p.window_size - now
    (s.1, pluginCellSet data2 (some expire) t)
  else
    (s.1, s.2)

def fixedWindowRun (p : FWParams) (ts : List ℚ) (cell : Cell FWData) :
    Cell FWData :=
  ts.foldl (fun c t => (fixedWindowCheck p c t).2) cell

/-! Sliding window (SlidingWindowAlgorithm). -/

structure SWParams where
  max_requests : ℤ
  window_size : ℤ
  deriving DecidableEq, Repr

structure SWData where
  requests : List ℚ
  deriving DecidableEq, Repr

/-- Purge: keep only timestamps strictly greater than now - window_size. -/
def swPurge (ws : ℤ) (l : List ℚ) (now : ℚ) : List ℚ :=
  l.filter (fun x => decide (now - (ws : ℚ) < x))

/-- SlidingWindowAlgorithm.get_status. -/
def slidingWindowStatus (p : SWParams) (cell : Cell SWData) (now : ℚ) :
    Verdict × Cell SWData :=
  let r := pluginCellGet cell now
  let data := r.1.getD { requests := [] }
  let requests := swPurge p.window_size data.requests now
  let allowed : Bool := decide ((requests.length : ℤ) < p.max_requests)
  let reset : ℤ :=
    match requests with
    | [] => pyInt (now + (p.window_size : ℚ))
    | x :: _ => pyInt (x + (p.window_size : ℚ))
  (buildResponse allowed (max 0 (p.max_requests - requests.length)) reset
    (if allowed then RATE_LIMIT_OK else RATE_LIMIT_WINDOW_LIMIT), r.2)

/-- SlidingWindowAlgorithm.check: when allowed, re-read, purge, append now
and write back with expire = window_size. -/
def slidingWindowCheck (p : SWParams) (cell : Cell SWData) (now : ℚ) :
    Verdict × Cell SWData :=
  let s := slidingWindowStatus p cell now
  if s.1.allowed = .pyStr TRUE_STRING then
    let r := pluginCellGet s.2 now
    let data := r.1.getD { requests := [] }
    let requests := swPurge p.window_size data.requests now ++ [now]
    (s.1, pluginCellSet { requests := requests } (some p.window_size) now)
  else
    (s.1, s.2)

def slidingWindowRun (p : SWParams) (ts : List ℚ) (cell : Cell SWData) :
    Cell SWData :=
  ts.foldl (fun c t => (slidingWindowCheck p c t).2) cell

/-! Leaky bucket (LeakyBucketAlgorithm). -/

structure LBParams where
  rate : ℚ
  capacity : ℤ
  deriving DecidableEq, Repr

structure LBData where
  water : ℚ
  last_leak : ℚ
  deriving DecidableEq, Repr

def lbDefault (now : ℚ) : LBData := { water := 0, last_leak := now }

/-- Leak step: water = max(0, water - (now - last_leak) * rate). -/
def lbLeak (p : LBParams) (d : LBData) (now : ℚ) : ℚ :=
  max 0 (d.water - (now - d.last_leak) * p.rate)

/-- LeakyBucketAlgorithm.get_status. -/
def leakyBucketStatus (p : LBParams) (cell : Cell LBData) (now : ℚ) :
    Verdict × Cell LBData :=
  let r := pluginCellGet cell now
  let data := r.1.getD (lbDefault now)
  let water := lbLeak p data now
  let allowed : Bool := decide (water < (p.capacity : ℚ))
  (buildResponse allowed (pyInt ((p.capacity : ℚ) - water))
    (pyInt (now + 1 / p.rate))
    (if allowed then RATE_LIMIT_OK else RATE_LIMIT_QUEUE_FULL), r.2)

/-- LeakyBucketAlgorithm.check: when allowed, re-read, leak, add one unit of
water and write back with expire = int(water / rate) for the new water. -/
def leakyBucketCheck (p : LBParams) (cell : Cell LBData) (now : ℚ) :
    Verdict × Cell LBData :=
  let s := leakyBucketStatus p cell now
  if s.1.allowed = .pyStr TRUE_STRING then
    let r := pluginCellGet s.2 now
    let data := r.1.getD (lbDefault now)
    let water := lbLeak p data now + 1
    (s.1, pluginCellSet { water := water, last_leak := now }
      (some (pyInt (water / p.rate))) now)
  else
    (s.1, s.2)

def leakyBucketRun (p : LBParams) (ts : List ℚ) (cell : Cell LBData) :
    Cell LBData :=
  ts.foldl (fun c t => (leakyBucketCheck p c t).2) cell

/-! Multiple buckets (MultipleBucketsAlgorithm). -/

structure MBParams where
  rate : ℚ
  capacity : ℤ
  max_requests : ℤ
  window_size : ℤ
  deriving DecidableEq, Repr

structure MBData where
  tokens : ℚ
  last_refill : ℚ
  requests : List ℚ
  water : ℚ
  last_leak : ℚ
  deriving DecidableEq, Repr

def mbDefault (p : MBParams) (now : ℚ) : MBData :=
  { tokens := (p.capacity : ℚ), last_refill := now, requests := [],
    water := 0, last_leak := now }

def mbTokens (p : MBParams) (d : MBData) (now : ℚ) : ℚ :=
  min (p.capacity : ℚ) (d.tokens + (now - d.last_refill) * p.rate)

def mbWater (p : MBParams) (d : MBData) (now : ℚ) : ℚ :=
  max 0 (d.water - (now - d.last_leak) * p.rate)

/-- Python min over a nonempty list, as a fold. -/
def listMin : List ℚ → Option ℚ
  | [] => none
  | x :: xs => some (xs.foldl min x)

/-- The candidate reset times collected by MultipleBucketsAlgorithm.get_status. -/
def mbResetTimes (p : MBParams) (tokens : ℚ) (requests : List ℚ) (water : ℚ)
    (now : ℚ) : List ℚ :=
  (if tokens < (p.capacity : ℚ) then
      [now + ((p.capacity : ℚ) - tokens) / p.rate] else []) ++
  (match requests with
   | [] => []
   | x :: _ => [x + (p.window_size : ℚ)]) ++
  (if 0 < water then [now + water / p.rate] else [])

/-- MultipleBucketsAlgorithm.get_status. -/
def multipleBucketsStatus (p : MBParams) (cell : Cell MBData) (now : ℚ) :
    Verdict × Cell MBData :=
  let r := pluginCellGet cell now
  let data := r.1.getD (mbDefault p now)
  let tokens := mbTokens p data now
  let requests := swPurge p.window_size data.requests now
  let water := mbWater p data now
  let reset := (listMin (mbResetTimes p tokens requests water now)).getD
    (now + (p.window_size : ℚ))
  let allowed : Bool := decide (1 ≤ tokens) &&
    decide ((requests.length : ℤ) < p.max_requests) &&
    decide (water < (p.capacity : ℚ))
  (buildResponse allowed
    (min (pyInt tokens)
      (min (p.max_requests - requests.length) (pyInt ((p.capacity : ℚ) - water))))
    (pyInt reset)
    (if allowed then RATE_LIMIT_OK else RATE_LIMIT_MULTIPLE), r.2)

/-- MultipleBucketsAlgorithm.check: when allowed, re-read, consume one token,
append now to the purged request list, add one unit of water, and write back
with expire = window_size. -/
def multipleBucketsCheck (p : MBParams) (cell : Cell MBData) (now : ℚ) :
    Verdict × Cell MBData :=
  let s := multipleBucketsStatus p cell now
  if s.1.allowed = .pyStr TRUE_STRING then
    let r := pluginCellGet s.2 now
    let data := r.1.getD (mbDefault p now)
    let tokens := mbTokens p data now - 1
    let requests := swPurge p.window_size data.requests now ++ [now]
    let water := mbWater p data now + 1
    (s.1, pluginCellSet
      { tokens := tokens, last_refill := now, requests := requests,
        water := water, last_leak := now }
      (some p.window_size) now)
  else
    (s.1, s.2)

def multipleBucketsRun (p : MBParams) (ts : List ℚ) (cell : Cell MBData) :
    Cell MBData :=
  ts.foldl (fun c t => (multipleBucketsCheck p c t).2) cell

/-! Tool layer: RateLimiterCheckTool (src/tools/rate_limiter_check.py),
RateLimiterStatusTool (src/tools/rate_limiter_status.py) and
RateLimiterMixin (src/tools/base/rate_limiter_base.py). -/

/-- The string parameters of a check call after validate_parameters
(user_id and action_type are required and truthy; unique_id is read with
parameters.get). -/
structure CheckParams where
  user_id : String
  action_type : String
  unique_id : String
  deriving DecidableEq, Repr

/-- The composite key built by RateLimiterCheckTool._invoke line 179. -/
def checkCompositeKey (ps : CheckParams) : String :=
  ps.user_id ++ ":" ++ ps.action_type

/-- Rendering of an optional string inside a Python f-string: None prints
as the four characters None. -/
def pyFmtOptStr : Option String → String
  | none => "None"
  | some s => s

/-- The configuration record the tools build from parameters.get values
(each field may be None). -/
structure ConfigRecord where
  action_type : Option String
  algorithm_type : Option String
  rate : Option ℤ
  capacity : Option ℤ
  max_requests : Option ℤ
  window_size : Option ℤ
  deriving DecidableEq, Repr

/-- The composite key built by RateLimiterStatusTool._invoke line 79: the
action_type segment comes from the stored config, not from the call. -/
def statusCompositeKey (user_id : String) (cfg : ConfigRecord) : String :=
  user_id ++ ":" ++ pyFmtOptStr cfg.action_type

/-- RateLimiterMixin.CONFIG_KEY_PREFIX. -/
def configKeyPrefixStr : String := "safety_chat:rate_limiter:config"

/-- The inline configuration step of RateLimiterCheckTool._invoke
(lines 157-167): the storage key is the bare unique_id, and the record is
written only when the read returns nothing.  (A stored ConfigRecord is a
six-entry dict, hence always truthy when present.) -/
def checkToolConfigInit (s : Store ConfigRecord) (uid : String)
    (cfg : ConfigRecord) (now : ℚ) : Store ConfigRecord :=
  let r := pluginStoreGet s uid now
  match r.1 with
  | none => pluginStoreSet r.2 uid cfg none now
  | some _ => r.2

/-- RateLimiterMixin.init_config: the key is CONFIG_KEY_PREFIX:unique_id and
the record is re-written when absent or different from the new one. -/
def mixinInitConfig (s : Store ConfigRecord) (uid : String)
    (cfg : ConfigRecord) (now : ℚ) : Store ConfigRecord :=
  let key := configKeyPrefixStr ++ ":" ++ uid
  let r := pluginStoreGet s key now
  match r.1 with
  | none => pluginStoreSet r.2 key cfg none now
  | some c => if c ≠ cfg then pluginStoreSet r.2 key cfg none now else r.2

/-- RateLimiterMixin.get_config. -/
def mixinGetConfig (s : Store ConfigRecord) (uid : String) (now : ℚ) :
    Option ConfigRecord × Store ConfigRecord :=
  pluginStoreGet s (configKeyPrefixStr ++ ":" ++ uid) now

/-- The ALGORITHM_PARAMS table of RateLimiterCheckTool (lines 42-65);
the RateLimiterMixin table (base/rate_limiter_base.py lines 31-54) has the
same contents. -/
def checkToolAlgorithmParams (algo : String) : List (String × ℤ) :=
  if algo = "token_bucket" then [("rate", 10), ("capacity", 100)]
  else if algo = "leaky_bucket" then [("rate", 10), ("capacity", 100)]
  else if algo = "fixed_window" then [("max_requests", 100), ("window_size", 60)]
  else if algo = "sliding_window" then [("max_requests", 100), ("window_size", 60)]
  else if algo = "multiple_buckets" then
    [("rate", 10), ("capacity", 100), ("max_requests", 100), ("window_size", 60)]
  else []

/-- The kwargs dict built by RateLimiterCheckTool._invoke lines 170-176: the
four numeric keys are always present and their values are parameters.get,
which is None whenever the caller omitted the parameter. -/
def invokeKwargs (parameters : String → Option ℤ) : List (String × Option ℤ) :=
  [("rate", parameters "rate"), ("capacity", parameters "capacity"),
   ("max_requests", parameters "max_requests"),
   ("window_size", parameters "window_size")]

/-- Python dict.get on a dict whose stored values may themselves be None:
when the key is present the stored value is returned even when it is None,
and the fallback is used only for an absent key. -/
def pyDictGet (d : List (String × Option ℤ)) (k : String)
    (fallback : Option ℤ) : Option ℤ :=
  match d.find? (fun e => e.1 == k) with
  | some e => e.2
  | none => fallback

/-- RateLimiterCheckTool._get_algorithm_params: for every key of the
defaults table, params[key] = kwargs.get(key, credentials.get(key, default)). -/
def getAlgorithmParams (algo : String) (kwargs : List (String × Option ℤ))
    (credentials : String → Option ℤ) : List (String × Option ℤ) :=
  (checkToolAlgorithmParams algo).map
    (fun e => (e.1, pyDictGet kwargs e.1 (some ((credentials e.1).getD e.2))))

/-- The default parameters of MultipleBucketsAlgorithm.__init__
(rate=10, capacity=100, max_requests=1000, window_size=3600), used only when
the corresponding constructor argument is omitted entirely. -/
def mbCtorDefaults : MBParams :=
  { rate := 10, capacity := 100, max_requests := 1000, window_size := 3600 }

/-- Two concrete configuration records that differ in every field. -/
def cfgSampleA : ConfigRecord :=
  { action_type := some "a", algorithm_type := some "token_bucket",
    rate := some 1, capacity := some 5, max_requests := none, window_size := none }

def cfgSampleB : ConfigRecord :=
  { action_type := some "b", algorithm_type := some "fixed_window",
    rate := none, capacity := none, max_requests := some 2, window_size := some 10 }

/-! Derived views of the status computations, used to state claims. -/

/-- The token count computed by TokenBucketAlgorithm.get_status at a call
instant (lines 284-291). -/
def tbStatusTokens (p : TBParams) (cell : Cell TBData) (now : ℚ) : ℚ :=
  tbRefill p (((pluginCellGet cell now).1).getD (tbDefault p now)) now

/-- The water level computed by LeakyBucketAlgorithm.get_status at a call
instant (lines 494-501). -/
def lbStatusWater (p : LBParams) (cell : Cell LBData) (now : ℚ) : ℚ :=
  lbLeak p (((pluginCellGet cell now).1).getD (lbDefault now)) now

/-- The count read by FixedWindowAlgorithm.get_status: zero when the slot is
absent or its start disagrees with the current window boundary. -/
def fwStatusCount (p : FWParams) (c : Cell FWData) (t : ℚ) : ℤ :=
  match (pluginCellGet c t).1 with
  | none => 0
  | some d => if d.start ≠ fwWindowStart p.window_size (pyInt t) then 0 else d.count

/-- The state record read by MultipleBucketsAlgorithm.get_status, defaulted
when absent. -/
def mbStatusData (p : MBParams) (cell : Cell MBData) (now : ℚ) : MBData :=
  ((pluginCellGet cell now).1).getD (mbDefault p now)

def mbStatusTokens (p : MBParams) (cell : Cell MBData) (now : ℚ) : ℚ :=
  mbTokens p (mbStatusData p cell now) now

def mbStatusRequests (p : MBParams) (cell : Cell MBData) (now : ℚ) : List ℚ :=
  swPurge p.window_size (mbStatusData p cell now).requests now

def mbStatusWater (p : MBParams) (cell : Cell MBData) (now : ℚ) : ℚ :=
  mbWater p (mbStatusData p cell now) now

/-- The stored data of a slot disregarding expiry information. -/
def cellData : Cell α → Option α
  | none => none
  | some (.raw v) => some v
  | some (.wrapped v _) => some v

/-- Invariant of reachable token-bucket slots as of instant t: stored
tokens are nonnegative and the refill timestamp is not in the future. -/
def TBInv (t : ℚ) (c : Cell TBData) : Prop :=
  ∀ d, cellData c = some d → 0 ≤ d.tokens ∧ d.last_refill ≤ t

/-- Invariant of reachable leaky-bucket slots as of instant t: stored water
lies in [0, capacity + 1) and the leak timestamp is not in the future. -/
def LBInv (p : LBParams) (t : ℚ) (c : Cell LBData) : Prop :=
  ∀ d, cellData c = some d →
    0 ≤ d.water ∧ d.water < (p.capacity : ℚ) + 1 ∧ d.last_leak ≤ t

/-- Invariant of reachable multiple-buckets slots as of instant t. -/
def MBInv (p : MBParams) (t : ℚ) (c : Cell MBData) : Prop :=
  ∀ d, cellData c = some d →
    0 ≤ d.tokens ∧ d.last_refill ≤ t ∧
    (d.requests.length : ℤ) ≤ p.max_requests ∧
    0 ≤ d.water ∧ d.water < (p.capacity : ℚ) + 1 ∧ d.last_leak ≤ t

/-- Number of admitted fixed-window check calls whose integer call time lies
in the aligned window [w, w + window_size), along a trace of check calls
executed in isolation on one key. -/
def fwCountAdmitsIn (p : FWParams) (w : ℤ) : List ℚ → Cell FWData → ℕ
  | [], _ => 0
  | t :: ts, c =>
    (if (fixedWindowCheck p c t).1.allowed = .pyStr TRUE_STRING ∧
        w ≤ pyInt t ∧ pyInt t < w + p.window_size then 1 else 0) +
      fwCountAdmitsIn p w ts (fixedWindowCheck p c t).2

/-- Invariant used to bound admits inside the aligned window starting at w:
either no admit has landed in the window yet and no stored record carries
start = w, or a ≥ 1 admits have landed, the slot holds exactly the record
for this window with a count between a and max_requests, and its expiry is
no earlier than the window end. -/
def FWInvW (p : FWParams) (w : ℤ) (a : ℕ) (c : Cell FWData) : Prop :=
  (a = 0 ∧ ∀ d, cellData c = some d → d.start ≠ w) ∨
  (1 ≤ a ∧ ∃ cnt ea, c = some (.wrapped { start := w, count := cnt } ea) ∧
    (a : ℤ) ≤ cnt ∧ cnt ≤ p.max_requests ∧ ((w : ℚ) + (p.window_size : ℚ)) ≤ ea)

/-- Logical storage contents are preserved from instant t on: every read at
or after t returns the same value on both cells. -/
def cellPreservedFrom (c c2 : Cell α) (t : ℚ) : Prop :=
  ∀ q, t ≤ q → (pluginCellGet c2 q).1 = (pluginCellGet c q).1

/-- The allowed field holds one of the two strings written by
_build_response. -/
def isBoolString (v : PyVal) : Prop :=
  v = .pyStr TRUE_STRING ∨ v = .pyStr FALSE_STRING

/-! Lemmas: Python int() truncation. -/

theorem pyInt_of_nonneg {q : ℚ} (h : 0 ≤ q) : pyInt q = ⌊q⌋ := by
  simp [pyInt, h]

theorem pyInt_nonneg {q : ℚ} (h : 0 ≤ q) : 0 ≤ pyInt q := by
  rw [pyInt_of_nonneg h]
  exact Int.floor_nonneg.mpr h

theorem pyInt_nonneg_of_neg_one_lt {q : ℚ} (h : -1 < q) : 0 ≤ pyInt q := by
  by_cases h0 : 0 ≤ q
  · exact pyInt_nonneg h0
  · have hq : pyInt q = ⌈q⌉ := by simp [pyInt, h0]
    rw [hq]
    by_contra hc
    push_neg at hc
    have h1 : ⌈q⌉ ≤ -1 := by omega
    have h2 := Int.ceil_le.mp h1
    push_cast at h2
    linarith

theorem pyInt_le_self {q : ℚ} (h : 0 ≤ q) : (pyInt q : ℚ) ≤ q := by
  rw [pyInt_of_nonneg h]
  exact Int.floor_le q

theorem lt_pyInt_add_one {q : ℚ} (h : 0 ≤ q) : q < pyInt q + 1 := by
  rw [pyInt_of_nonneg h]
  exact_mod_cast Int.lt_floor_add_one q

theorem pyInt_intCast (n : ℤ) : pyInt (n : ℚ) = n := by
  by_cases h : (0 : ℚ) ≤ (n : ℚ) <;> simp [pyInt, h]

/-! Lemmas: storage slots. -/

theorem pluginCellGet_idem (c : Cell α) (now : ℚ) :
    pluginCellGet (pluginCellGet c now).2 now = pluginCellGet c now := by
  match c with
  | none => rfl
  | some (.raw v) => rfl
  | some (.wrapped v ea) =>
      by_cases h : ea ≤ now <;> simp [pluginCellGet, h]

theorem pluginCellGet_preserves (c : Cell α) {t q : ℚ} (h : t ≤ q) :
    (pluginCellGet (pluginCellGet c t).2 q).1 = (pluginCellGet c q).1 := by
  match c with
  | none => rfl
  | some (.raw v) => rfl
  | some (.wrapped v ea) =>
      by_cases he : ea ≤ t
      · have : ea ≤ q := le_trans he h
        simp [pluginCellGet, he, this]
      · simp [pluginCellGet, he]

theorem cellPreservedFrom_get (c : Cell α) (t : ℚ) :
    cellPreservedFrom c (pluginCellGet c t).2 t :=
  fun _ h => pluginCellGet_preserves c h

theorem pluginStoreGet_fst (s : Store α) (k : String) (now : ℚ) :
    (pluginStoreGet s k now).1 = (pluginCellGet (s k) now).1 := rfl

theorem pluginStoreGet_snd_at (s : Store α) (k : String) (now : ℚ) :
    (pluginStoreGet s k now).2 k = (pluginCellGet (s k) now).2 := by
  simp [pluginStoreGet]

theorem pluginStoreSet_at (s : Store α) (k : String) (v : α) (e : Option ℤ)
    (now : ℚ) : pluginStoreSet s k v e now k = pluginCellSet v e now := by
  simp [pluginStoreSet]

theorem pluginCellGet_set_none (v : α) (t q : ℚ) :
    (pluginCellGet (pluginCellSet v none t) q).1 = some v := rfl

theorem pluginCellGet_fst_idem (c : Cell α) (now : ℚ) :
    (pluginCellGet (pluginCellGet c now).2 now).1 = (pluginCellGet c now).1 := by
  rw [pluginCellGet_idem]

/-! Lemmas: the second component of each get_status is exactly the slot
left behind by the single storage get the method performs. -/

theorem tokenBucketStatus_snd (p : TBParams) (c : Cell TBData) (t : ℚ) :
    (tokenBucketStatus p c t).2 = (pluginCellGet c t).2 := rfl

theorem fixedWindowStatus_snd (p : FWParams) (c : Cell FWData) (t : ℚ) :
    (fixedWindowStatus p c t).2 = (pluginCellGet c t).2 := rfl

theorem slidingWindowStatus_snd (p : SWParams) (c : Cell SWData) (t : ℚ) :
    (slidingWindowStatus p c t).2 = (pluginCellGet c t).2 := rfl

theorem leakyBucketStatus_snd (p : LBParams) (c : Cell LBData) (t : ℚ) :
    (leakyBucketStatus p c t).2 = (pluginCellGet c t).2 := rfl

theorem multipleBucketsStatus_snd (p : MBParams) (c : Cell MBData) (t : ℚ) :
    (multipleBucketsStatus p c t).2 = (pluginCellGet c t).2 := rfl

/-! Lemmas: each check returns the verdict computed by its get_status. -/

theorem tokenBucketCheck_fst (p : TBParams) (c : Cell TBData) (t : ℚ) :
    (tokenBucketCheck p c t).1 = (tokenBucketStatus p c t).1 := by
  by_cases h : (tokenBucketStatus p c t).1.allowed = PyVal.pyStr TRUE_STRING <;>
    simp [tokenBucketCheck, h]

theorem fixedWindowCheck_fst (p : FWParams) (c : Cell FWData) (t : ℚ) :
    (fixedWindowCheck p c t).1 = (fixedWindowStatus p c t).1 := by
  by_cases h : (fixedWindowStatus p c t).1.allowed = PyVal.pyStr TRUE_STRING <;>
    simp [fixedWindowCheck, h]

theorem slidingWindowCheck_fst (p : SWParams) (c : Cell SWData) (t : ℚ) :
    (slidingWindowCheck p c t).1 = (slidingWindowStatus p c t).1 := by
  by_cases h : (slidingWindowStatus p c t).1.allowed = PyVal.pyStr TRUE_STRING <;>
    simp [slidingWindowCheck, h]

theorem leakyBucketCheck_fst (p : LBParams) (c : Cell LBData) (t : ℚ) :
    (leakyBucketCheck p c t).1 = (leakyBucketStatus p c t).1 := by
  by_cases h : (leakyBucketStatus p c t).1.allowed = PyVal.pyStr TRUE_STRING <;>
    simp [leakyBucketCheck, h]

theorem multipleBucketsCheck_fst (p : MBParams) (c : Cell MBData) (t : ℚ) :
    (multipleBucketsCheck p c t).1 = (multipleBucketsStatus p c t).1 := by
  by_cases h : (multipleBucketsStatus p c t).1.allowed = PyVal.pyStr TRUE_STRING <;>
    simp [multipleBucketsCheck, h]

/-! Lemmas: get_status is idempotent at one instant. -/

theorem tokenBucketStatus_idem (p : TBParams) (c : Cell TBData) (t : ℚ) :
    tokenBucketStatus p (tokenBucketStatus p c t).2 t = tokenBucketStatus p c t := by
  unfold tokenBucketStatus
  simp [pluginCellGet_idem]

theorem fixedWindowStatus_idem (p : FWParams) (c : Cell FWData) (t : ℚ) :
    fixedWindowStatus p (fixedWindowStatus p c t).2 t = fixedWindowStatus p c t := by
  unfold fixedWindowStatus
  simp [pluginCellGet_idem]

theorem slidingWindowStatus_idem (p : SWParams) (c : Cell SWData) (t : ℚ) :
    slidingWindowStatus p (slidingWindowStatus p c t).2 t = slidingWindowStatus p c t := by
  unfold slidingWindowStatus
  simp [pluginCellGet_idem]

theorem leakyBucketStatus_idem (p : LBParams) (c : Cell LBData) (t : ℚ) :
    leakyBucketStatus p (leakyBucketStatus p c t).2 t = leakyBucketStatus p c t := by
  unfold leakyBucketStatus
  simp [pluginCellGet_idem]

theorem multipleBucketsStatus_idem (p : MBParams) (c : Cell MBData) (t : ℚ) :
    multipleBucketsStatus p (multipleBucketsStatus p c t).2 t = multipleBucketsStatus p c t := by
  unfold multipleBucketsStatus
  simp [pluginCellGet_idem]

theorem buildResponse_allowed (b : Bool) (r t : ℤ) (c : String) :
    isBoolString (buildResponse b r t c).allowed := by
  cases b
  · exact Or.inr rfl
  · exact Or.inl rfl

/-! Lemmas: verdict shapes of the status functions, and the allowed field
as a proposition. -/

theorem buildResponse_allowed_iff (b : Bool) (r t : ℤ) (c : String) :
    (buildResponse b r t c).allowed = .pyStr TRUE_STRING ↔ b = true := by
  cases b <;> simp [buildResponse, TRUE_STRING, FALSE_STRING]

theorem tokenBucketStatus_fst (p : TBParams) (c : Cell TBData) (t : ℚ) :
    (tokenBucketStatus p c t).1 =
      buildResponse (decide (1 ≤ tbStatusTokens p c t))
        (pyInt (tbStatusTokens p c t)) (pyInt (t + 1 / p.rate))
        (if decide (1 ≤ tbStatusTokens p c t) then RATE_LIMIT_OK
          else RATE_LIMIT_NO_TOKENS) := rfl

theorem leakyBucketStatus_fst (p : LBParams) (c : Cell LBData) (t : ℚ) :
    (leakyBucketStatus p c t).1 =
      buildResponse (decide (lbStatusWater p c t < (p.capacity : ℚ)))
        (pyInt ((p.capacity : ℚ) - lbStatusWater p c t)) (pyInt (t + 1 / p.rate))
        (if decide (lbStatusWater p c t < (p.capacity : ℚ)) then RATE_LIMIT_OK
          else RATE_LIMIT_QUEUE_FULL) := rfl

theorem fixedWindowStatus_fst (p : FWParams) (c : Cell FWData) (t : ℚ) :
    (fixedWindowStatus p c t).1 =
      buildResponse (decide (fwStatusCount p c t < p.max_requests))
        (max 0 (p.max_requests - fwStatusCount p c t))
        (fwWindowStart p.window_size (pyInt t) + p.window_size)
        (if decide (fwStatusCount p c t < p.max_requests) then RATE_LIMIT_OK
          else RATE_LIMIT_MAX_REQUESTS) := rfl

theorem tokenBucketStatus_allowed_iff (p : TBParams) (c : Cell TBData) (t : ℚ) :
    (tokenBucketStatus p c t).1.allowed = .pyStr TRUE_STRING ↔
      1 ≤ tbStatusTokens p c t := by
  rw [tokenBucketStatus_fst, buildResponse_allowed_iff]
  simp

theorem leakyBucketStatus_allowed_iff (p : LBParams) (c : Cell LBData) (t : ℚ) :
    (leakyBucketStatus p c t).1.allowed = .pyStr TRUE_STRING ↔
      lbStatusWater p c t < (p.capacity : ℚ) := by
  rw [leakyBucketStatus_fst, buildResponse_allowed_iff]
  simp

theorem fixedWindowStatus_allowed_iff (p : FWParams) (c : Cell FWData) (t : ℚ) :
    (fixedWindowStatus p c t).1.allowed = .pyStr TRUE_STRING ↔
      fwStatusCount p c t < p.max_requests := by
  rw [fixedWindowStatus_fst, buildResponse_allowed_iff]
  simp

theorem multipleBucketsStatus_allowed_iff (p : MBParams) (c : Cell MBData) (t : ℚ) :
    (multipleBucketsStatus p c t).1.allowed = .pyStr TRUE_STRING ↔
      (1 ≤ mbStatusTokens p c t ∧
        ((mbStatusRequests p c t).length : ℤ) < p.max_requests ∧
        mbStatusWater p c t < (p.capacity : ℚ)) := by
  have h : (multipleBucketsStatus p c t).1.allowed =
      PyVal.pyStr (if (decide (1 ≤ mbStatusTokens p c t) &&
          decide (((mbStatusRequests p c t).length : ℤ) < p.max_requests) &&
          decide (mbStatusWater p c t < (p.capacity : ℚ))) then TRUE_STRING
        else FALSE_STRING) := rfl
  rw [h]
  constructor
  · intro he
    by_contra hcon
    rw [if_neg] at he
    · exact absurd (PyVal.pyStr.inj he) (by decide)
    · intro hb
      simp only [Bool.and_eq_true, decide_eq_true_eq] at hb
      exact hcon ⟨hb.1.1, hb.1.2, hb.2⟩
  · intro ⟨h1, h2, h3⟩
    rw [if_pos]
    simp only [Bool.and_eq_true, decide_eq_true_eq]
    exact ⟨⟨h1, h2⟩, h3⟩

/-! Lemmas: reads come from stored data; writes store the given record. -/

theorem cellData_of_get {c : Cell α} {t : ℚ} {d : α}
    (h : (pluginCellGet c t).1 = some d) : cellData c = some d := by
  match c with
  | none => exact absurd h (by simp [pluginCellGet])
  | some (.raw v) =>
      simp only [pluginCellGet, Option.some.injEq] at h
      simp [cellData, h]
  | some (.wrapped v ea) =>
      by_cases he : ea ≤ t
      · simp [pluginCellGet, he] at h
      · simp only [pluginCellGet, he, if_false, Option.some.injEq] at h
        simp [cellData, h]

theorem cellData_get_sub {c : Cell α} {t : ℚ} {d : α}
    (h : cellData (pluginCellGet c t).2 = some d) : cellData c = some d := by
  match c with
  | none => exact absurd h (by simp [pluginCellGet, cellData])
  | some (.raw v) => exact h
  | some (.wrapped v ea) =>
      by_cases he : ea ≤ t
      · simp [pluginCellGet, he, cellData] at h
      · simpa [pluginCellGet, he] using h

theorem cellData_set (v : α) (e : Option ℤ) (t : ℚ) :
    cellData (pluginCellSet v e t) = some v := by
  match e with
  | none => rfl
  | some n =>
      by_cases hn : n = 0 <;> simp [pluginCellSet, hn, cellData]

/-! Lemmas: the storage effect of each check, by case on the verdict. -/

theorem tokenBucketCheck_snd_of_allowed (p : TBParams) (c : Cell TBData) (t : ℚ)
    (h : 1 ≤ tbStatusTokens p c t) :
    (tokenBucketCheck p c t).2 =
      pluginCellSet { tokens := tbStatusTokens p c t - 1, last_refill := t }
        (some (pyInt (1 / p.rate))) t := by
  have hcond : (tokenBucketStatus p c t).1.allowed = .pyStr TRUE_STRING :=
    (tokenBucketStatus_allowed_iff p c t).mpr h
  have hkey : pluginCellGet (tokenBucketStatus p c t).2 t = pluginCellGet c t := by
    rw [tokenBucketStatus_snd]
    exact pluginCellGet_idem c t
  simp only [tokenBucketCheck, hcond, if_true, hkey]
  rfl

theorem tokenBucketCheck_snd_of_denied (p : TBParams) (c : Cell TBData) (t : ℚ)
    (h : ¬ 1 ≤ tbStatusTokens p c t) :
    (tokenBucketCheck p c t).2 = (pluginCellGet c t).2 := by
  have hcond : ¬ (tokenBucketStatus p c t).1.allowed = .pyStr TRUE_STRING :=
    fun hc => h ((tokenBucketStatus_allowed_iff p c t).mp hc)
  simp only [tokenBucketCheck, hcond, if_false]
  rfl

theorem leakyBucketCheck_snd_of_allowed (p : LBParams) (c : Cell LBData) (t : ℚ)
    (h : lbStatusWater p c t < (p.capacity : ℚ)) :
    (leakyBucketCheck p c t).2 =
      pluginCellSet { water := lbStatusWater p c t + 1, last_leak := t }
        (some (pyInt ((lbStatusWater p c t + 1) / p.rate))) t := by
  have hcond : (leakyBucketStatus p c t).1.allowed = .pyStr TRUE_STRING :=
    (leakyBucketStatus_allowed_iff p c t).mpr h
  have hkey : pluginCellGet (leakyBucketStatus p c t).2 t = pluginCellGet c t := by
    rw [leakyBucketStatus_snd]
    exact pluginCellGet_idem c t
  simp only [leakyBucketCheck, hcond, if_true, hkey]
  rfl

theorem leakyBucketCheck_snd_of_denied (p : LBParams) (c : Cell LBData) (t : ℚ)
    (h : ¬ lbStatusWater p c t < (p.capacity : ℚ)) :
    (leakyBucketCheck p c t).2 = (pluginCellGet c t).2 := by
  have hcond : ¬ (leakyBucketStatus p c t).1.allowed = .pyStr TRUE_STRING :=
    fun hc => h ((leakyBucketStatus_allowed_iff p c t).mp hc)
  simp only [leakyBucketCheck, hcond, if_false]
  rfl

theorem multipleBucketsCheck_snd_of_allowed (p : MBParams) (c : Cell MBData) (t : ℚ)
    (h1 : 1 ≤ mbStatusTokens p c t)
    (h2 : ((mbStatusRequests p c t).length : ℤ) < p.max_requests)
    (h3 : mbStatusWater p c t < (p.capacity : ℚ)) :
    (multipleBucketsCheck p c t).2 =
      pluginCellSet
        { tokens := mbStatusTokens p c t - 1, last_refill := t,
          requests := mbStatusRequests p c t ++ [t],
          water := mbStatusWater p c t + 1, last_leak := t }
        (some p.window_size) t := by
  have hcond : (multipleBucketsStatus p c t).1.allowed = .pyStr TRUE_STRING :=
    (multipleBucketsStatus_allowed_iff p c t).mpr ⟨h1, h2, h3⟩
  have hkey : pluginCellGet (multipleBucketsStatus p c t).2 t = pluginCellGet c t := by
    rw [multipleBucketsStatus_snd]
    exact pluginCellGet_idem c t
  simp only [multipleBucketsCheck, hcond, if_true, hkey]
  rfl

theorem multipleBucketsCheck_snd_of_denied (p : MBParams) (c : Cell MBData) (t : ℚ)
    (h : ¬ (1 ≤ mbStatusTokens p c t ∧
      ((mbStatusRequests p c t).length : ℤ) < p.max_requests ∧
      mbStatusWater p c t < (p.capacity : ℚ))) :
    (multipleBucketsCheck p c t).2 = (pluginCellGet c t).2 := by
  have hcond : ¬ (multipleBucketsStatus p c t).1.allowed = .pyStr TRUE_STRING :=
    fun hc => h ((multipleBucketsStatus_allowed_iff p c t).mp hc)
  simp only [multipleBucketsCheck, hcond, if_false]
  rfl

/-! Lemmas: bounds on the recomputed continuous quantities under the
reachability invariants. -/

theorem lbStatusWater_nonneg (p : LBParams) (c : Cell LBData) (t : ℚ) :
    0 ≤ lbStatusWater p c t :=
  le_max_left 0 _

theorem lbStatusWater_lt (p : LBParams) (c : Cell LBData) (t : ℚ)
    (hcap : 0 ≤ p.capacity) (hrate : 0 ≤ p.rate) (hinv : LBInv p t c) :
    lbStatusWater p c t < (p.capacity : ℚ) + 1 := by
  have hcapq : (0 : ℚ) ≤ (p.capacity : ℚ) := by exact_mod_cast hcap
  unfold lbStatusWater lbLeak
  rcases hget : (pluginCellGet c t).1 with _ | d
  · simp only [Option.getD_none, lbDefault]
    have he : (0 : ℚ) - (t - t) * p.rate = 0 := by ring
    rw [he]
    simp
    linarith
  · obtain ⟨h1, h2, h3⟩ := hinv d (cellData_of_get hget)
    have h4 : 0 ≤ (t - d.last_leak) * p.rate := mul_nonneg (by linarith) hrate
    simp only [Option.getD_some]
    exact max_lt (by linarith) (by linarith)

theorem mbStatusTokens_nonneg (p : MBParams) (c : Cell MBData) (t : ℚ)
    (hcap : 0 ≤ p.capacity) (hrate : 0 ≤ p.rate) (hinv : MBInv p t c) :
    0 ≤ mbStatusTokens p c t := by
  have hcapq : (0 : ℚ) ≤ (p.capacity : ℚ) := by exact_mod_cast hcap
  unfold mbStatusTokens mbTokens mbStatusData
  rcases hget : (pluginCellGet c t).1 with _ | d
  · simp only [Option.getD_none, mbDefault]
    refine le_min hcapq ?_
    have he : ((p.capacity : ℚ)) + (t - t) * p.rate = (p.capacity : ℚ) := by ring
    rw [he]
    exact hcapq
  · obtain ⟨h1, h2, _, _, _, _⟩ := hinv d (cellData_of_get hget)
    have h3 : 0 ≤ (t - d.last_refill) * p.rate := mul_nonneg (by linarith) hrate
    simp only [Option.getD_some]
    exact le_min hcapq (by linarith)

theorem mbStatusWater_lt (p : MBParams) (c : Cell MBData) (t : ℚ)
    (hcap : 0 ≤ p.capacity) (hrate : 0 ≤ p.rate) (hinv : MBInv p t c) :
    mbStatusWater p c t < (p.capacity : ℚ) + 1 := by
  have hcapq : (0 : ℚ) ≤ (p.capacity : ℚ) := by exact_mod_cast hcap
  unfold mbStatusWater mbWater mbStatusData
  rcases hget : (pluginCellGet c t).1 with _ | d
  · simp only [Option.getD_none, mbDefault]
    have he : (0 : ℚ) - (t - t) * p.rate = 0 := by ring
    rw [he]
    simp
    linarith
  · obtain ⟨_, _, _, h4, h5, h6⟩ := hinv d (cellData_of_get hget)
    have h7 : 0 ≤ (t - d.last_leak) * p.rate := mul_nonneg (by linarith) hrate
    simp only [Option.getD_some]
    exact max_lt (by linarith) (by linarith)

theorem mbStatusWater_nonneg (p : MBParams) (c : Cell MBData) (t : ℚ) :
    0 ≤ mbStatusWater p c t :=
  le_max_left 0 _

theorem mbStatusRequests_le (p : MBParams) (c : Cell MBData) (t : ℚ)
    (hmr : 0 ≤ p.max_requests) (hinv : MBInv p t c) :
    ((mbStatusRequests p c t).length : ℤ) ≤ p.max_requests := by
  unfold mbStatusRequests mbStatusData
  rcases hget : (pluginCellGet c t).1 with _ | d
  · simpa [swPurge] using hmr
  · obtain ⟨_, _, h3, _, _, _⟩ := hinv d (cellData_of_get hget)
    have h4 : (swPurge p.window_size d.requests t).length ≤ d.requests.length :=
      List.length_filter_le _ _
    simp only [Option.getD_some]
    calc ((swPurge p.window_size d.requests t).length : ℤ)
        ≤ (d.requests.length : ℤ) := by exact_mod_cast h4
      _ ≤ p.max_requests := h3

/-- Nonnegativity of the token count computed by get_status when the stored
slot satisfies the reachability invariant. -/
theorem tbStatusTokens_nonneg (p : TBParams) (c : Cell TBData) (t : ℚ)
    (hcap : 0 ≤ p.capacity) (hrate : 0 ≤ p.rate) (hinv : TBInv t c) :
    0 ≤ tbStatusTokens p c t := by
  have hcapq : (0 : ℚ) ≤ (p.capacity : ℚ) := by exact_mod_cast hcap
  unfold tbStatusTokens tbRefill
  rcases hget : (pluginCellGet c t).1 with _ | d
  · simp only [Option.getD_none, tbDefault]
    refine le_min hcapq ?_
    simp
    exact_mod_cast hcapq
  · obtain ⟨h1, h2⟩ := hinv d (cellData_of_get hget)
    have h3 : 0 ≤ (t - d.last_refill) * p.rate :=
      mul_nonneg (by linarith) hrate
    simp only [Option.getD_some]
    exact le_min hcapq (by linarith)

/-! Lemmas: the invariants are preserved by check and by the passage of
time, hence hold on every reachable slot. -/

theorem tb_check_inv (p : TBParams)
    {t t2 : ℚ} (ht : t ≤ t2) {c : Cell TBData} (hinv : TBInv t c) :
    TBInv t2 (tokenBucketCheck p c t).2 := by
  by_cases h : 1 ≤ tbStatusTokens p c t
  · rw [tokenBucketCheck_snd_of_allowed p c t h]
    intro d hd
    rw [cellData_set] at hd
    cases Option.some.inj hd
    exact ⟨by simp only; linarith, ht⟩
  · rw [tokenBucketCheck_snd_of_denied p c t h]
    intro d hd
    obtain ⟨h1, h2⟩ := hinv d (cellData_get_sub hd)
    exact ⟨h1, le_trans h2 ht⟩

theorem lb_check_inv (p : LBParams)
    {t t2 : ℚ} (ht : t ≤ t2) {c : Cell LBData} (hinv : LBInv p t c) :
    LBInv p t2 (leakyBucketCheck p c t).2 := by
  by_cases h : lbStatusWater p c t < (p.capacity : ℚ)
  · rw [leakyBucketCheck_snd_of_allowed p c t h]
    intro d hd
    rw [cellData_set] at hd
    cases Option.some.inj hd
    refine ⟨?_, by simp only; linarith, ht⟩
    have := lbStatusWater_nonneg p c t
    simp only
    linarith
  · rw [leakyBucketCheck_snd_of_denied p c t h]
    intro d hd
    obtain ⟨h1, h2, h3⟩ := hinv d (cellData_get_sub hd)
    exact ⟨h1, h2, le_trans h3 ht⟩

theorem mb_check_inv (p : MBParams)
    {t t2 : ℚ} (ht : t ≤ t2) {c : Cell MBData} (hinv : MBInv p t c) :
    MBInv p t2 (multipleBucketsCheck p c t).2 := by
  by_cases h : 1 ≤ mbStatusTokens p c t ∧
      ((mbStatusRequests p c t).length : ℤ) < p.max_requests ∧
      mbStatusWater p c t < (p.capacity : ℚ)
  · obtain ⟨h1, h2, h3⟩ := h
    rw [multipleBucketsCheck_snd_of_allowed p c t h1 h2 h3]
    intro d hd
    rw [cellData_set] at hd
    cases Option.some.inj hd
    have hw := mbStatusWater_nonneg p c t
    refine ⟨by simp only; linarith, ht, ?_, by simp only; linarith,
      by simp only; linarith, ht⟩
    simp only [List.length_append, List.length_singleton]
    push_cast
    omega
  · rw [multipleBucketsCheck_snd_of_denied p c t h]
    intro d hd
    obtain ⟨h1, h2, h3, h4, h5, h6⟩ := hinv d (cellData_get_sub hd)
    exact ⟨h1, le_trans h2 ht, h3, h4, h5, le_trans h6 ht⟩

theorem tb_run_inv (p : TBParams) :
    ∀ (ts : List ℚ) (c : Cell TBData) (tq : ℚ),
      ts.Pairwise (· ≤ ·) → (∀ x ∈ ts, x ≤ tq) →
      (∀ x ∈ ts, TBInv x c) → TBInv tq c →
      TBInv tq (tokenBucketRun p ts c)
  | [], c, tq, _, _, _, hq => hq
  | t :: ts, c, tq, hpw, hle, hinv, hq => by
    rw [List.pairwise_cons] at hpw
    have hstep : ∀ t2, t ≤ t2 → TBInv t2 (tokenBucketCheck p c t).2 :=
      fun t2 h2 => tb_check_inv p h2 (hinv t (by simp))
    have hrun : tokenBucketRun p (t :: ts) c =
        tokenBucketRun p ts (tokenBucketCheck p c t).2 := rfl
    rw [hrun]
    exact tb_run_inv p ts _ tq hpw.2
      (fun x hx => hle x (by simp [hx]))
      (fun x hx => hstep x (hpw.1 x hx))
      (hstep tq (hle t (by simp)))

theorem lb_run_inv (p : LBParams) :
    ∀ (ts : List ℚ) (c : Cell LBData) (tq : ℚ),
      ts.Pairwise (· ≤ ·) → (∀ x ∈ ts, x ≤ tq) →
      (∀ x ∈ ts, LBInv p x c) → LBInv p tq c →
      LBInv p tq (leakyBucketRun p ts c)
  | [], c, tq, _, _, _, hq => hq
  | t :: ts, c, tq, hpw, hle, hinv, hq => by
    rw [List.pairwise_cons] at hpw
    have hstep : ∀ t2, t ≤ t2 → LBInv p t2 (leakyBucketCheck p c t).2 :=
      fun t2 h2 => lb_check_inv p h2 (hinv t (by simp))
    have hrun : leakyBucketRun p (t :: ts) c =
        leakyBucketRun p ts (leakyBucketCheck p c t).2 := rfl
    rw [hrun]
    exact lb_run_inv p ts _ tq hpw.2
      (fun x hx => hle x (by simp [hx]))
      (fun x hx => hstep x (hpw.1 x hx))
      (hstep tq (hle t (by simp)))

theorem mb_run_inv (p : MBParams) :
    ∀ (ts : List ℚ) (c : Cell MBData) (tq : ℚ),
      ts.Pairwise (· ≤ ·) → (∀ x ∈ ts, x ≤ tq) →
      (∀ x ∈ ts, MBInv p x c) → MBInv p tq c →
      MBInv p tq (multipleBucketsRun p ts c)
  | [], c, tq, _, _, _, hq => hq
  | t :: ts, c, tq, hpw, hle, hinv, hq => by
    rw [List.pairwise_cons] at hpw
    have hstep : ∀ t2, t ≤ t2 → MBInv p t2 (multipleBucketsCheck p c t).2 :=
      fun t2 h2 => mb_check_inv p h2 (hinv t (by simp))
    have hrun : multipleBucketsRun p (t :: ts) c =
        multipleBucketsRun p ts (multipleBucketsCheck p c t).2 := rfl
    rw [hrun]
    exact mb_run_inv p ts _ tq hpw.2
      (fun x hx => hle x (by simp [hx]))
      (fun x hx => hstep x (hpw.1 x hx))
      (hstep tq (hle t (by simp)))

/-! Lemmas: fixed-window arithmetic. -/

theorem fwWindowStart_le (ws n : ℤ) (hws : 0 < ws) : fwWindowStart ws n ≤ n := by
  have h := Int.emod_nonneg n (ne_of_gt hws)
  unfold fwWindowStart
  omega

theorem lt_fwWindowStart_add (ws n : ℤ) (hws : 0 < ws) :
    n < fwWindowStart ws n + ws := by
  have h := Int.emod_lt_of_pos n hws
  unfold fwWindowStart
  omega

theorem fwWindowStart_eq_of_mem (ws n m : ℤ) (hws : 0 < ws)
    (h1 : m * ws ≤ n) (h2 : n < m * ws + ws) : fwWindowStart ws n = m * ws := by
  have hqr := Int.ediv_add_emod n ws
  have hr0 := Int.emod_nonneg n (ne_of_gt hws)
  have hrw := Int.emod_lt_of_pos n hws
  have hq1 : ws * (n / ws) < ws * (m + 1) := by nlinarith
  have hq2 : ws * m < ws * (n / ws + 1) := by nlinarith
  have hqm1 : n / ws < m + 1 := lt_of_mul_lt_mul_left hq1 (le_of_lt hws)
  have hqm2 : m < n / ws + 1 := lt_of_mul_lt_mul_left hq2 (le_of_lt hws)
  have hqm : n / ws = m := by omega
  unfold fwWindowStart
  rw [show n % ws = n - ws * (n / ws) by omega, hqm]
  ring

/-! Lemmas: the storage effect of a fixed-window check. -/

theorem fixedWindowCheck_snd_of_allowed (p : FWParams) (c : Cell FWData) (t : ℚ)
    (h : fwStatusCount p c t < p.max_requests) :
    (fixedWindowCheck p c t).2 =
      pluginCellSet
        { start := fwWindowStart p.window_size (pyInt t),
          count := fwStatusCount p c t + 1 }
        (some (fwWindowStart p.window_size (pyInt t) + p.window_size - pyInt t))
        t := by
  have hcond : (fixedWindowStatus p c t).1.allowed = .pyStr TRUE_STRING :=
    (fixedWindowStatus_allowed_iff p c t).mpr h
  have hkey : pluginCellGet (fixedWindowStatus p c t).2 t = pluginCellGet c t := by
    rw [fixedWindowStatus_snd]
    exact pluginCellGet_idem c t
  simp only [fixedWindowCheck, hcond, if_true, hkey]
  rcases hget : (pluginCellGet c t).1 with _ | d
  · simp [fwStatusCount, hget]
  · by_cases hds : d.start = fwWindowStart p.window_size (pyInt t)
    · simp [fwStatusCount, hget, hds]
    · simp [fwStatusCount, hget, hds]

theorem fixedWindowCheck_snd_of_denied (p : FWParams) (c : Cell FWData) (t : ℚ)
    (h : ¬ fwStatusCount p c t < p.max_requests) :
    (fixedWindowCheck p c t).2 = (pluginCellGet c t).2 := by
  have hcond : ¬ (fixedWindowStatus p c t).1.allowed = .pyStr TRUE_STRING :=
    fun hc => h ((fixedWindowStatus_allowed_iff p c t).mp hc)
  simp only [fixedWindowCheck, hcond, if_false]
  rfl

/-! Lemmas: no call at or after the window end is counted for the window. -/

theorem fwCountAdmitsIn_zero (p : FWParams) (w : ℤ) :
    ∀ (ts : List ℚ) (c : Cell FWData),
      (∀ x ∈ ts, 0 ≤ x ∧ ((w : ℚ) + (p.window_size : ℚ)) ≤ x) →
      fwCountAdmitsIn p w ts c = 0
  | [], _, _ => rfl
  | t :: ts, c, hmem => by
    have h0 : 0 ≤ t := (hmem t (by simp)).1
    have h1 : ((w : ℚ) + (p.window_size : ℚ)) ≤ t := (hmem t (by simp)).2
    have h2 : w + p.window_size ≤ pyInt t := by
      rw [pyInt_of_nonneg h0]
      refine Int.le_floor.mpr ?_
      push_cast
      linarith
    simp only [fwCountAdmitsIn]
    rw [if_neg (fun hcon => absurd hcon.2.2 (not_lt.mpr h2))]
    rw [fwCountAdmitsIn_zero p w ts _ (fun x hx => hmem x (by simp [hx]))]

/-- Core induction for the fixed-window hard bound: along a nondecreasing
trace of nonnegative call instants, if a admits have already landed in the
aligned window starting at w = m * window_size and the slot satisfies the
window invariant, then a plus the admits still to come in that window stays
within max_requests. -/
theorem fw_bound_aux (p : FWParams) (m : ℤ) (hws : 0 < p.window_size)
    (hmr : 0 ≤ p.max_requests) :
    ∀ (ts : List ℚ) (c : Cell FWData) (a : ℕ),
      ts.Pairwise (· ≤ ·) → (∀ x ∈ ts, 0 ≤ x) →
      (1 ≤ a → ∀ x ∈ ts, ((m * p.window_size : ℤ) : ℚ) ≤ x) →
      FWInvW p (m * p.window_size) a c →
      (a : ℤ) + (fwCountAdmitsIn p (m * p.window_size) ts c : ℤ) ≤
        p.max_requests := by
  intro ts
  induction ts with
  | nil =>
      intro c a _ _ _ hinv
      simp only [fwCountAdmitsIn]
      rcases hinv with ⟨ha, _⟩ | ⟨_, cnt, ea, _, h1, h2, _⟩ <;> omega
  | cons t ts IH =>
      intro c a hpw hpos hlow hinv
      have hpwc := List.pairwise_cons.mp hpw
      have h0t : 0 ≤ t := hpos t (by simp)
      have hnt : ((pyInt t : ℤ) : ℚ) ≤ t := pyInt_le_self h0t
      have htn1 : t < pyInt t + 1 := lt_pyInt_add_one h0t
      by_cases hA : pyInt t < m * p.window_size
      · -- the call lands strictly before the window
        have ha0 : a = 0 := by
          by_contra hne
          have h1a : 1 ≤ a := Nat.one_le_iff_ne_zero.mpr hne
          have hwt : ((m * p.window_size : ℤ) : ℚ) ≤ t := hlow h1a t (by simp)
          have : m * p.window_size ≤ pyInt t := by
            rw [pyInt_of_nonneg h0t]
            exact Int.le_floor.mpr hwt
          omega
        subst ha0
        have hinv1 : ∀ d, cellData c = some d → d.start ≠ m * p.window_size := by
          rcases hinv with ⟨_, h⟩ | ⟨h1a, _⟩
          · exact h
          · omega
        simp only [fwCountAdmitsIn]
        rw [if_neg (fun hcon => absurd hcon.2.1 (not_le.mpr hA))]
        have hinv2 : FWInvW p (m * p.window_size) 0 (fixedWindowCheck p c t).2 := by
          by_cases hal : fwStatusCount p c t < p.max_requests
          · rw [fixedWindowCheck_snd_of_allowed p c t hal]
            refine Or.inl ⟨rfl, ?_⟩
            intro d hd
            rw [cellData_set] at hd
            cases Option.some.inj hd
            have := fwWindowStart_le p.window_size (pyInt t) hws
            simp only
            omega
          · rw [fixedWindowCheck_snd_of_denied p c t hal]
            exact Or.inl ⟨rfl, fun d hd => hinv1 d (cellData_get_sub hd)⟩
        have hrec := IH (fixedWindowCheck p c t).2 0 hpwc.2
          (fun x hx => hpos x (by simp [hx])) (fun h1 => absurd h1 (by omega)) hinv2
        push_cast at hrec ⊢
        omega
      · by_cases hC : m * p.window_size + p.window_size ≤ pyInt t
        · -- the call lands at or after the window end: nothing more counts
          have hall : ∀ x ∈ (t :: ts),
              0 ≤ x ∧ ((m * p.window_size : ℤ) : ℚ) + (p.window_size : ℚ) ≤ x := by
            intro x hx
            refine ⟨hpos x hx, ?_⟩
            have hxt : t ≤ x := by
              rcases List.mem_cons.mp hx with h | h
              · exact le_of_eq h.symm
              · exact hpwc.1 x h
            have hCq : ((m * p.window_size + p.window_size : ℤ) : ℚ) ≤ t := by
              calc ((m * p.window_size + p.window_size : ℤ) : ℚ)
                  ≤ ((pyInt t : ℤ) : ℚ) := by exact_mod_cast hC
                _ ≤ t := hnt
            push_cast at hCq ⊢
            linarith
          rw [fwCountAdmitsIn_zero p (m * p.window_size) (t :: ts) c hall]
          rcases hinv with ⟨ha, _⟩ | ⟨_, cnt, ea, _, h1, h2, _⟩ <;> omega
        · -- the call lands inside the window
          have hin1 : m * p.window_size ≤ pyInt t := not_lt.mp hA
          have hin2 : pyInt t < m * p.window_size + p.window_size := not_le.mp hC
          have hws_eq : fwWindowStart p.window_size (pyInt t) = m * p.window_size :=
            fwWindowStart_eq_of_mem p.window_size (pyInt t) m hws hin1 hin2
          have hwt : ((m * p.window_size : ℤ) : ℚ) ≤ t :=
            le_trans (by exact_mod_cast hin1) hnt
          have hlow2 : ∀ x ∈ ts, ((m * p.window_size : ℤ) : ℚ) ≤ x :=
            fun x hx => le_trans hwt (hpwc.1 x hx)
          have hexpos : ((m * p.window_size : ℤ) : ℚ) + (p.window_size : ℚ) ≤
              t + ((m * p.window_size + p.window_size - pyInt t : ℤ) : ℚ) := by
            push_cast
            push_cast at hnt
            linarith
          rcases hinv with ⟨ha0, hnd⟩ | ⟨h1a, cnt, ea, hcell, hacnt, hcntm, hea⟩
          · -- no admit in the window yet
            subst ha0
            have hk : fwStatusCount p c t = 0 := by
              unfold fwStatusCount
              rcases hget : (pluginCellGet c t).1 with _ | d
              · rfl
              · have hd := hnd d (cellData_of_get hget)
                rw [hws_eq]
                simp [hd]
            by_cases hal : fwStatusCount p c t < p.max_requests
            · -- first admit in the window
              have hcond : (fixedWindowCheck p c t).1.allowed = .pyStr TRUE_STRING := by
                rw [fixedWindowCheck_fst]
                exact (fixedWindowStatus_allowed_iff p c t).mpr hal
              simp only [fwCountAdmitsIn]
              rw [if_pos ⟨hcond, hin1, hin2⟩]
              have hexp : m * p.window_size + p.window_size - pyInt t ≠ 0 := by omega
              have hcell3 : (fixedWindowCheck p c t).2 =
                  some (.wrapped { start := m * p.window_size, count := 1 }
                    (t + ((m * p.window_size + p.window_size - pyInt t : ℤ) : ℚ))) := by
                rw [fixedWindowCheck_snd_of_allowed p c t hal, hws_eq, hk]
                simp [pluginCellSet, hexp]
              have hinv2 : FWInvW p (m * p.window_size) 1 (fixedWindowCheck p c t).2 := by
                refine Or.inr ⟨le_refl 1, 1, _, hcell3, by norm_num, by omega, ?_⟩
                exact hexpos
              have hrec := IH (fixedWindowCheck p c t).2 1 hpwc.2
                (fun x hx => hpos x (by simp [hx])) (fun _ => hlow2) hinv2
              push_cast at hrec ⊢
              omega
            · -- denied (max_requests = 0)
              have hcond : ¬ (fixedWindowCheck p c t).1.allowed = .pyStr TRUE_STRING := by
                rw [fixedWindowCheck_fst]
                exact fun hc => hal ((fixedWindowStatus_allowed_iff p c t).mp hc)
              simp only [fwCountAdmitsIn]
              rw [if_neg (fun hcon => hcond hcon.1)]
              have hinv2 : FWInvW p (m * p.window_size) 0 (fixedWindowCheck p c t).2 := by
                rw [fixedWindowCheck_snd_of_denied p c t hal]
                exact Or.inl ⟨rfl, fun d hd => hnd d (cellData_get_sub hd)⟩
              have hrec := IH (fixedWindowCheck p c t).2 0 hpwc.2
                (fun x hx => hpos x (by simp [hx])) (fun h1 => absurd h1 (by omega)) hinv2
              push_cast at hrec ⊢
              omega
          · -- a ≥ 1 admits already in the window: the slot holds its record
            have htea : t < ea := by
              have h2 : (pyInt t : ℤ) + 1 ≤ m * p.window_size + p.window_size := by
                omega
              have h1 : t < ((m * p.window_size : ℤ) : ℚ) + (p.window_size : ℚ) := by
                have h3 : ((pyInt t : ℤ) : ℚ) + 1 ≤
                    ((m * p.window_size : ℤ) : ℚ) + (p.window_size : ℚ) := by
                  push_cast
                  exact_mod_cast h2
                linarith
              exact lt_of_lt_of_le h1 hea
            have hread1 : (pluginCellGet c t).1 =
                some { start := m * p.window_size, count := cnt } := by
              rw [hcell]
              simp [pluginCellGet, not_le.mpr htea]
            have hread2 : (pluginCellGet c t).2 = c := by
              rw [hcell]
              simp [pluginCellGet, not_le.mpr htea]
            have hk : fwStatusCount p c t = cnt := by
              unfold fwStatusCount
              rw [hread1, hws_eq]
              simp
            by_cases hal2 : cnt < p.max_requests
            · -- another admit in the window
              have hal : fwStatusCount p c t < p.max_requests := by
                rw [hk]
                exact hal2
              have hcond : (fixedWindowCheck p c t).1.allowed = .pyStr TRUE_STRING := by
                rw [fixedWindowCheck_fst]
                exact (fixedWindowStatus_allowed_iff p c t).mpr hal
              simp only [fwCountAdmitsIn]
              rw [if_pos ⟨hcond, hin1, hin2⟩]
              have hexp : m * p.window_size + p.window_size - pyInt t ≠ 0 := by omega
              have hcell3 : (fixedWindowCheck p c t).2 =
                  some (.wrapped { start := m * p.window_size, count := cnt + 1 }
                    (t + ((m * p.window_size + p.window_size - pyInt t : ℤ) : ℚ))) := by
                rw [fixedWindowCheck_snd_of_allowed p c t hal, hws_eq, hk]
                simp [pluginCellSet, hexp]
              have hinv2 : FWInvW p (m * p.window_size) (a + 1)
                  (fixedWindowCheck p c t).2 := by
                refine Or.inr ⟨by omega, cnt + 1, _, hcell3, by push_cast; omega,
                  by omega, ?_⟩
                exact hexpos
              have hrec := IH (fixedWindowCheck p c t).2 (a + 1) hpwc.2
                (fun x hx => hpos x (by simp [hx])) (fun _ => hlow2) hinv2
              push_cast at hrec ⊢
              omega
            · -- denied: the window is full
              have hal : ¬ fwStatusCount p c t < p.max_requests := by
                rw [hk]
                exact hal2
              have hcond : ¬ (fixedWindowCheck p c t).1.allowed = .pyStr TRUE_STRING := by
                rw [fixedWindowCheck_fst]
                exact fun hc => hal ((fixedWindowStatus_allowed_iff p c t).mp hc)
              simp only [fwCountAdmitsIn]
              rw [if_neg (fun hcon => hcond hcon.1)]
              have hinv2 : FWInvW p (m * p.window_size) a (fixedWindowCheck p c t).2 := by
                rw [fixedWindowCheck_snd_of_denied p c t hal, hread2]
                exact Or.inr ⟨h1a, cnt, ea, hcell, hacnt, hcntm, hea⟩
              have hrec := IH (fixedWindowCheck p c t).2 a hpwc.2
                (fun x hx => hpos x (by simp [hx])) (fun _ => hlow2) hinv2
              push_cast at hrec ⊢
              omega

theorem tokenBucketStatus_remaining (p : TBParams) (c : Cell TBData) (t : ℚ) :
    (tokenBucketStatus p c t).1.remaining = pyInt (tbStatusTokens p c t) := rfl

theorem leakyBucketStatus_remaining (p : LBParams) (c : Cell LBData) (t : ℚ) :
    (leakyBucketStatus p c t).1.remaining =
      pyInt ((p.capacity : ℚ) - lbStatusWater p c t) := rfl

theorem fixedWindowStatus_remaining (p : FWParams) (c : Cell FWData) (t : ℚ) :
    (fixedWindowStatus p c t).1.remaining =
      max 0 (p.max_requests - fwStatusCount p c t) := rfl

theorem multipleBucketsStatus_remaining (p : MBParams) (c : Cell MBData) (t : ℚ) :
    (multipleBucketsStatus p c t).1.remaining =
      min (pyInt (mbStatusTokens p c t))
        (min (p.max_requests - ((mbStatusRequests p c t).length : ℤ))
          (pyInt ((p.capacity : ℚ) - mbStatusWater p c t))) := rfl

/-! Claim theorems. -/

/-- C5: for every finite sequence of fixed-window check calls on a single
key executed in isolation (nondecreasing nonnegative call instants, positive
window size, nonnegative max_requests), the number of calls that return
allowed true and whose integer call time lies inside any one aligned window
[m·window_size, (m+1)·window_size) is at most max_requests. -/
theorem C5 (p : FWParams) (m : ℤ) (ts : List ℚ) (hws : 0 < p.window_size)
    (hmr : 0 ≤ p.max_requests) (hts : ts.Pairwise (· ≤ ·))
    (hpos : ∀ x ∈ ts, 0 ≤ x) :
    (fwCountAdmitsIn p (m * p.window_size) ts none : ℤ) ≤ p.max_requests := by
  have h := fw_bound_aux p m hws hmr ts none 0 hts hpos
    (fun h1 => absurd h1 (by omega))
    (Or.inl ⟨rfl, fun d hd => absurd hd (by simp [cellData])⟩)
  push_cast at h ⊢
  omega

/-- C5 witness: three checks at t = 0, 1, 2 against max_requests 2 and
window_size 10 admit at most 2 calls inside the window [0, 10). -/
theorem C5_witness :
    fwCountAdmitsIn { max_requests := 2, window_size := 10 }
      (0 * 10) [0, 1, 2] none = 2 ∧
    (fwCountAdmitsIn { max_requests := 2, window_size := 10 }
      (0 * 10) [0, 1, 2] none : ℤ) ≤ 2 :=
  ⟨by norm_num +decide [fwCountAdmitsIn, fixedWindowCheck, fixedWindowStatus,
      pluginCellGet, pluginCellSet, fwWindowStart, buildResponse, pyInt,
      TRUE_STRING, FALSE_STRING],
   C5 { max_requests := 2, window_size := 10 } 0 [0, 1, 2] (by norm_num)
     (by norm_num) (by norm_num [List.pairwise_cons])
     (by intro x hx; fin_cases hx <;> norm_num)⟩

/-- C6 counterexample: the claim describes the leaky-bucket remaining as
⌊capacity − water⌋.  From the empty store, leaky-bucket checks (rate 1,
capacity 2) at t = 0, 0, 1/2 are all admitted and leave water = 5/2 > 2;
a status at t = 1/2 then computes remaining with Python int(), which
truncates -1/2 to 0, while ⌊capacity − water⌋ = ⌊-1/2⌋ = -1: the verdict
field differs from the claimed floor on a reachable state. -/
theorem C6_counterexample :
    leakyBucketRun { rate := 1, capacity := 2 } [0, 0, 1/2] none =
      some (.wrapped { water := 5/2, last_leak := 1/2 } (5/2)) ∧
    lbStatusWater { rate := 1, capacity := 2 }
      (some (.wrapped { water := 5/2, last_leak := 1/2 } (5/2))) (1/2) = 5/2 ∧
    (leakyBucketStatus { rate := 1, capacity := 2 }
      (some (.wrapped { water := 5/2, last_leak := 1/2 } (5/2))) (1/2)).1.remaining = 0 ∧
    ⌊((2 : ℤ) : ℚ) - lbStatusWater { rate := 1, capacity := 2 }
      (some (.wrapped { water := 5/2, last_leak := 1/2 } (5/2))) (1/2)⌋ = -1 ∧
    (leakyBucketStatus { rate := 1, capacity := 2 }
      (some (.wrapped { water := 5/2, last_leak := 1/2 } (5/2))) (1/2)).1.remaining ≠
      ⌊((2 : ℤ) : ℚ) - lbStatusWater { rate := 1, capacity := 2 }
        (some (.wrapped { water := 5/2, last_leak := 1/2 } (5/2))) (1/2)⌋ := by
  have h2 : lbStatusWater { rate := 1, capacity := 2 }
      (some (.wrapped { water := 5/2, last_leak := 1/2 } (5/2))) (1/2) = 5/2 := by
    norm_num [lbStatusWater, lbLeak, pluginCellGet, lbDefault]
  have h3 : (leakyBucketStatus { rate := 1, capacity := 2 }
      (some (.wrapped { water := 5/2, last_leak := 1/2 } (5/2))) (1/2)).1.remaining = 0 := by
    norm_num [leakyBucketStatus, pluginCellGet, lbDefault, lbLeak, buildResponse, pyInt]
  have h4 : ⌊((2 : ℤ) : ℚ) - lbStatusWater { rate := 1, capacity := 2 }
      (some (.wrapped { water := 5/2, last_leak := 1/2 } (5/2))) (1/2)⌋ = -1 := by
    rw [h2]
    norm_num
  refine ⟨?_, h2, h3, h4, ?_⟩
  · norm_num [leakyBucketRun, leakyBucketCheck, leakyBucketStatus, pluginCellGet,
      pluginCellSet, lbDefault, lbLeak, buildResponse, pyInt, TRUE_STRING]
  · rw [h3, h4]
    decide

/-- C6 amended: in every verdict of check or get_status on a state reachable
by a sequence of checks from the empty store (check verdicts equal the
status verdict of the pre-state, so status covers both), remaining is ≥ 0
for all five algorithms; for the leaky bucket (and the water component of
multiple buckets) this is because remaining applies Python int() truncation
toward zero to capacity − water, which sends the reachable overshoot
water ∈ (capacity, capacity + 1) to 0 — not the mathematical floor the
claim states, which would be -1 there.  The multiple-buckets minimum needs
no extra clamp on reachable states because each of its three components is
already nonnegative. -/
theorem C6_amended
    (p1 : TBParams) (p4 : LBParams) (p5 : MBParams)
    (h1c : 0 ≤ p1.capacity) (h1r : 0 ≤ p1.rate)
    (h4c : 0 ≤ p4.capacity) (h4r : 0 ≤ p4.rate)
    (h5c : 0 ≤ p5.capacity) (h5r : 0 ≤ p5.rate) (h5m : 0 ≤ p5.max_requests)
    (p2 : FWParams) (c2 : Cell FWData) (p3 : SWParams) (c3 : Cell SWData)
    (ts : List ℚ) (tq : ℚ) (hts : ts.Pairwise (· ≤ ·))
    (htq : ∀ x ∈ ts, x ≤ tq) (t : ℚ) :
    0 ≤ (tokenBucketStatus p1 (tokenBucketRun p1 ts none) tq).1.remaining ∧
    0 ≤ (fixedWindowStatus p2 c2 t).1.remaining ∧
    0 ≤ (slidingWindowStatus p3 c3 t).1.remaining ∧
    0 ≤ (leakyBucketStatus p4 (leakyBucketRun p4 ts none) tq).1.remaining ∧
    0 ≤ (multipleBucketsStatus p5 (multipleBucketsRun p5 ts none) tq).1.remaining := by
  have hTB : TBInv tq (tokenBucketRun p1 ts none) :=
    tb_run_inv p1 ts none tq hts htq
      (fun x _ d hd => absurd hd (by simp [cellData]))
      (fun d hd => absurd hd (by simp [cellData]))
  have hLB : LBInv p4 tq (leakyBucketRun p4 ts none) :=
    lb_run_inv p4 ts none tq hts htq
      (fun x _ d hd => absurd hd (by simp [cellData]))
      (fun d hd => absurd hd (by simp [cellData]))
  have hMB : MBInv p5 tq (multipleBucketsRun p5 ts none) :=
    mb_run_inv p5 ts none tq hts htq
      (fun x _ d hd => absurd hd (by simp [cellData]))
      (fun d hd => absurd hd (by simp [cellData]))
  refine ⟨?_, ?_, ?_, ?_, ?_⟩
  · rw [tokenBucketStatus_remaining]
    exact pyInt_nonneg (tbStatusTokens_nonneg p1 _ tq h1c h1r hTB)
  · rw [fixedWindowStatus_remaining]
    exact le_max_left _ _
  · exact le_max_left _ _
  · rw [leakyBucketStatus_remaining]
    refine pyInt_nonneg_of_neg_one_lt ?_
    have hw := lbStatusWater_lt p4 _ tq h4c h4r hLB
    linarith
  · rw [multipleBucketsStatus_remaining]
    have htk := pyInt_nonneg (mbStatusTokens_nonneg p5 _ tq h5c h5r hMB)
    have hreq : 0 ≤ p5.max_requests -
        ((mbStatusRequests p5 (multipleBucketsRun p5 ts none) tq).length : ℤ) := by
      have := mbStatusRequests_le p5 _ tq h5m hMB
      omega
    have hw : 0 ≤ pyInt ((p5.capacity : ℚ) -
        mbStatusWater p5 (multipleBucketsRun p5 ts none) tq) := by
      refine pyInt_nonneg_of_neg_one_lt ?_
      have := mbStatusWater_lt p5 _ tq h5c h5r hMB
      linarith
    exact le_min htk (le_min hreq hw)

/-- C6 witness: the amended statement on the trace t = 0, 0, 1/2 queried at
t = 1/2 — which for the leaky bucket is exactly the overshoot state of the
counterexample. -/
theorem C6_witness :
    0 ≤ (tokenBucketStatus { rate := 1, capacity := 5 }
      (tokenBucketRun { rate := 1, capacity := 5 } [0, 0, 1/2] none) (1/2)).1.remaining ∧
    0 ≤ (fixedWindowStatus { max_requests := 2, window_size := 10 } none 0).1.remaining ∧
    0 ≤ (slidingWindowStatus { max_requests := 2, window_size := 10 } none 0).1.remaining ∧
    0 ≤ (leakyBucketStatus { rate := 1, capacity := 2 }
      (leakyBucketRun { rate := 1, capacity := 2 } [0, 0, 1/2] none) (1/2)).1.remaining ∧
    0 ≤ (multipleBucketsStatus { rate := 1, capacity := 2, max_requests := 3, window_size := 10 }
      (multipleBucketsRun { rate := 1, capacity := 2, max_requests := 3, window_size := 10 }
        [0, 0, 1/2] none) (1/2)).1.remaining :=
  C6_amended { rate := 1, capacity := 5 } { rate := 1, capacity := 2 }
    { rate := 1, capacity := 2, max_requests := 3, window_size := 10 }
    (by norm_num) (by norm_num) (by norm_num) (by norm_num) (by norm_num)
    (by norm_num) (by norm_num)
    { max_requests := 2, window_size := 10 } none
    { max_requests := 2, window_size := 10 } none
    [0, 0, 1/2] (1/2)
    (by norm_num [List.pairwise_cons])
    (by intro x hx; fin_cases hx <;> norm_num) 0

/-- C1 counterexample: the claim states that check tracks state under the
three-segment composite key user_id:action_type:unique_id.  The check tool
(rate_limiter_check.py line 179) builds the two-segment key
user_id:action_type: for user_id u, action_type a, unique_id x the key is
u:a, not u:a:x; the status tool (rate_limiter_status.py line 79) also
builds a two-segment key, taking the action segment from the stored
config. -/
theorem C1_counterexample :
    checkCompositeKey { user_id := "u", action_type := "a", unique_id := "x" } = "u:a" ∧
    checkCompositeKey { user_id := "u", action_type := "a", unique_id := "x" } ≠ "u:a:x" ∧
    statusCompositeKey ("u") cfgSampleA = "u:a" := by
  refine ⟨rfl, ?_, rfl⟩
  decide

/-- C1 amended: the composite key is the two-segment string
user_id:action_type in both tools, so the state written by check for a
(user_id, action_type) pair is the state read by status for a
(user_id, unique_id) pair exactly when the config stored for that unique_id
records the same action_type. -/
theorem C1_amended (ps : CheckParams) (cfg : ConfigRecord)
    (h : cfg.action_type = some ps.action_type) :
    checkCompositeKey ps = ps.user_id ++ ":" ++ ps.action_type ∧
    statusCompositeKey ps.user_id cfg = checkCompositeKey ps := by
  refine ⟨rfl, ?_⟩
  simp [statusCompositeKey, checkCompositeKey, h, pyFmtOptStr]

/-- C1 witness: the amended statement at user u, action a, unique_id x with
a matching stored config. -/
theorem C1_witness :
    cfgSampleA.action_type = some "a" ∧
    (checkCompositeKey { user_id := "u", action_type := "a", unique_id := "x" } =
        "u" ++ ":" ++ "a" ∧
      statusCompositeKey ("u") cfgSampleA =
        checkCompositeKey { user_id := "u", action_type := "a", unique_id := "x" }) :=
  ⟨rfl, C1_amended { user_id := "u", action_type := "a", unique_id := "x" } cfgSampleA rfl⟩

/-- C2 counterexample: the claim states get_status performs no store write
or delete, the contents after equalling the contents before.  From the
reachable slot written by a token-bucket check (rate 1, capacity 5, call at
t = 0; TTL int(1/1) = 1 so expire_at = 1), a get_status at t = 2 goes
through PluginPersistentStorage.get, which deletes the expired entry: the
physical slot changes from the wrapped entry to empty. -/
theorem C2_counterexample :
    tokenBucketRun { rate := 1, capacity := 5 } [0] none =
      some (.wrapped { tokens := 4, last_refill := 0 } 1) ∧
    (tokenBucketStatus { rate := 1, capacity := 5 }
      (some (.wrapped { tokens := 4, last_refill := 0 } 1)) 2).2 = none ∧
    (none : Cell TBData) ≠ some (.wrapped { tokens := 4, last_refill := 0 } 1) := by
  refine ⟨?_, ?_, by simp⟩
  · norm_num [tokenBucketRun, tokenBucketCheck, tokenBucketStatus, pluginCellGet,
      pluginCellSet, tbDefault, tbRefill, buildResponse, pyInt, TRUE_STRING]
  · norm_num [tokenBucketStatus_snd, pluginCellGet]

/-- C2 amended: for each of the five algorithms, get_status issues no set
and deletes nothing except an already-expired entry, so the logical store
contents (every read at or after the call instant) are unchanged; and
get_status is idempotent at one instant, so a second and third consecutive
status call return the identical verdict (in particular identical allowed
and remaining) and no admit occurs. -/
theorem C2_amended (p1 : TBParams) (c1 : Cell TBData) (p2 : FWParams) (c2 : Cell FWData)
    (p3 : SWParams) (c3 : Cell SWData) (p4 : LBParams) (c4 : Cell LBData)
    (p5 : MBParams) (c5 : Cell MBData) (t : ℚ) :
    (cellPreservedFrom c1 (tokenBucketStatus p1 c1 t).2 t ∧
      tokenBucketStatus p1 (tokenBucketStatus p1 c1 t).2 t = tokenBucketStatus p1 c1 t) ∧
    (cellPreservedFrom c2 (fixedWindowStatus p2 c2 t).2 t ∧
      fixedWindowStatus p2 (fixedWindowStatus p2 c2 t).2 t = fixedWindowStatus p2 c2 t) ∧
    (cellPreservedFrom c3 (slidingWindowStatus p3 c3 t).2 t ∧
      slidingWindowStatus p3 (slidingWindowStatus p3 c3 t).2 t = slidingWindowStatus p3 c3 t) ∧
    (cellPreservedFrom c4 (leakyBucketStatus p4 c4 t).2 t ∧
      leakyBucketStatus p4 (leakyBucketStatus p4 c4 t).2 t = leakyBucketStatus p4 c4 t) ∧
    (cellPreservedFrom c5 (multipleBucketsStatus p5 c5 t).2 t ∧
      multipleBucketsStatus p5 (multipleBucketsStatus p5 c5 t).2 t =
        multipleBucketsStatus p5 c5 t) :=
  ⟨⟨cellPreservedFrom_get c1 t, tokenBucketStatus_idem p1 c1 t⟩,
   ⟨cellPreservedFrom_get c2 t, fixedWindowStatus_idem p2 c2 t⟩,
   ⟨cellPreservedFrom_get c3 t, slidingWindowStatus_idem p3 c3 t⟩,
   ⟨cellPreservedFrom_get c4 t, leakyBucketStatus_idem p4 c4 t⟩,
   ⟨cellPreservedFrom_get c5 t, multipleBucketsStatus_idem p5 c5 t⟩⟩

/-- C2 witness: the amended statement at concrete parameters and the slot
reached by one token-bucket admit. -/
theorem C2_witness :
    cellPreservedFrom (some (.wrapped { tokens := 4, last_refill := 0 } 1))
      (tokenBucketStatus { rate := 1, capacity := 5 }
        (some (.wrapped { tokens := 4, last_refill := 0 } 1)) 2).2 2 ∧
    tokenBucketStatus { rate := 1, capacity := 5 }
        (tokenBucketStatus { rate := 1, capacity := 5 }
          (some (.wrapped { tokens := 4, last_refill := 0 } 1)) 2).2 2 =
      tokenBucketStatus { rate := 1, capacity := 5 }
        (some (.wrapped { tokens := 4, last_refill := 0 } 1)) 2 :=
  (C2_amended { rate := 1, capacity := 5 } (some (.wrapped { tokens := 4, last_refill := 0 } 1))
    { max_requests := 1, window_size := 1 } none { max_requests := 1, window_size := 1 } none
    { rate := 1, capacity := 1 } none
    { rate := 1, capacity := 1, max_requests := 1, window_size := 1 } none 2).1

/-- C3 counterexample: the claim states the check call stores the config
under safety_chat:rate_limiter:config:unique_id and overwrites on any
field mismatch.  The check tool (rate_limiter_check.py lines 157-167)
instead uses the bare unique_id as the storage key and writes only when
nothing is stored there: from an empty store the record lands under x and
not under the prefixed key, and an existing different record under x is
left unchanged. -/
theorem C3_counterexample :
    (checkToolConfigInit (fun _ => none) ("x") cfgSampleA 0)
      ("safety_chat:rate_limiter:config:x") = none ∧
    (checkToolConfigInit (fun _ => none) ("x") cfgSampleA 0) ("x") =
      some (.raw cfgSampleA) ∧
    (checkToolConfigInit (fun k => if k = "x" then some (.raw cfgSampleB) else none)
      ("x") cfgSampleA 0) ("x") = some (.raw cfgSampleB) ∧
    cfgSampleB ≠ cfgSampleA := by
  refine ⟨?_, ?_, ?_, by decide⟩ <;>
    simp [checkToolConfigInit, pluginStoreGet, pluginStoreSet, pluginCellGet,
      pluginCellSet]

/-- C3 amended: the check call keeps the configuration under the bare key
unique_id — the prefixed key safety_chat:rate_limiter:config:unique_id is
untouched — and never overwrites: reading back after the step returns the
pre-existing record when there was one and the new record only when the
slot was empty.  The RateLimiterMixin.init_config helper (which the check
tool does not call) is the one that uses the prefixed key and re-persists
on mismatch, so that reading it back always yields the new record. -/
theorem C3_amended (s : Store ConfigRecord) (uid : String) (cfg : ConfigRecord)
    (now : ℚ) :
    checkToolConfigInit s uid cfg now (configKeyPrefixStr ++ ":" ++ uid) =
      (pluginStoreGet s uid now).2 (configKeyPrefixStr ++ ":" ++ uid) ∧
    (pluginStoreGet (checkToolConfigInit s uid cfg now) uid now).1 =
      some (((pluginStoreGet s uid now).1).getD cfg) ∧
    (mixinGetConfig (mixinInitConfig s uid cfg now) uid now).1 = some cfg := by
  have hne : configKeyPrefixStr ++ ":" ++ uid ≠ uid := by
    intro h
    have hlen := congrArg String.length h
    rw [String.length_append, String.length_append] at hlen
    have h31 : configKeyPrefixStr.length = 31 := rfl
    have h1 : (":" : String).length = 1 := rfl
    omega
  refine ⟨?_, ?_, ?_⟩
  · rcases h : (pluginStoreGet s uid now).1 with _ | c
    · simp only [checkToolConfigInit, h]
      simp [pluginStoreSet, hne]
    · simp only [checkToolConfigInit, h]
  · rcases h : (pluginStoreGet s uid now).1 with _ | c
    · simp only [checkToolConfigInit, h, Option.getD_none]
      rw [pluginStoreGet_fst, pluginStoreSet_at]
      exact pluginCellGet_set_none cfg now now
    · simp only [checkToolConfigInit, h, Option.getD_some]
      rw [pluginStoreGet_fst, pluginStoreGet_snd_at, pluginCellGet_fst_idem]
      exact h
  · rcases h : (pluginStoreGet s (configKeyPrefixStr ++ ":" ++ uid) now).1 with _ | c
    · simp only [mixinInitConfig, mixinGetConfig, h]
      rw [pluginStoreGet_fst, pluginStoreSet_at]
      exact pluginCellGet_set_none cfg now now
    · by_cases hc : c = cfg
      · simp only [mixinInitConfig, mixinGetConfig, h, hc, ne_eq,
          not_true_eq_false, if_false]
        rw [pluginStoreGet_fst, pluginStoreGet_snd_at, pluginCellGet_fst_idem]
        rw [show (pluginCellGet (s (configKeyPrefixStr ++ ":" ++ uid)) now).1 =
          some c from h, hc]
      · simp only [mixinInitConfig, mixinGetConfig, h, hc, ne_eq,
          not_false_eq_true, if_true]
        rw [pluginStoreGet_fst, pluginStoreSet_at]
        exact pluginCellGet_set_none cfg now now

/-- C7 counterexample: the claim states the allowed field is a boolean.
The verdict built for a token-bucket status on an empty store holds the
Python string true (written by _build_response from TRUE_STRING), which is
not a boolean value. -/
theorem C7_counterexample :
    (tokenBucketStatus { rate := 10, capacity := 100 } none 0).1.allowed =
      PyVal.pyStr ("true") ∧
    ¬ ∃ b : Bool, (tokenBucketStatus { rate := 10, capacity := 100 } none 0).1.allowed =
      PyVal.pyBool b := by
  have h : (tokenBucketStatus { rate := 10, capacity := 100 } none 0).1.allowed =
      PyVal.pyStr ("true") := by
    norm_num [tokenBucketStatus, pluginCellGet, tbDefault, tbRefill, buildResponse,
      TRUE_STRING]
  refine ⟨h, ?_⟩
  rw [h]
  rintro ⟨b, hb⟩
  simp at hb

/-- C7 amended: in every verdict of check or get_status of any of the five
algorithms, the allowed field is one of the two strings true and false
(TRUE_STRING / FALSE_STRING), a string encoding of a boolean rather than a
boolean. -/
theorem C7_amended (p1 : TBParams) (c1 : Cell TBData) (p2 : FWParams) (c2 : Cell FWData)
    (p3 : SWParams) (c3 : Cell SWData) (p4 : LBParams) (c4 : Cell LBData)
    (p5 : MBParams) (c5 : Cell MBData) (t : ℚ) :
    isBoolString (tokenBucketStatus p1 c1 t).1.allowed ∧
    isBoolString (tokenBucketCheck p1 c1 t).1.allowed ∧
    isBoolString (fixedWindowStatus p2 c2 t).1.allowed ∧
    isBoolString (fixedWindowCheck p2 c2 t).1.allowed ∧
    isBoolString (slidingWindowStatus p3 c3 t).1.allowed ∧
    isBoolString (slidingWindowCheck p3 c3 t).1.allowed ∧
    isBoolString (leakyBucketStatus p4 c4 t).1.allowed ∧
    isBoolString (leakyBucketCheck p4 c4 t).1.allowed ∧
    isBoolString (multipleBucketsStatus p5 c5 t).1.allowed ∧
    isBoolString (multipleBucketsCheck p5 c5 t).1.allowed := by
  refine ⟨?_, ?_, ?_, ?_, ?_, ?_, ?_, ?_, ?_, ?_⟩ <;>
    first
      | exact buildResponse_allowed _ _ _ _
      | (rw [tokenBucketCheck_fst]; exact buildResponse_allowed _ _ _ _)
      | (rw [fixedWindowCheck_fst]; exact buildResponse_allowed _ _ _ _)
      | (rw [slidingWindowCheck_fst]; exact buildResponse_allowed _ _ _ _)
      | (rw [leakyBucketCheck_fst]; exact buildResponse_allowed _ _ _ _)
      | (rw [multipleBucketsCheck_fst]; exact buildResponse_allowed _ _ _ _)

/-- C8 counterexample: the claim states a multiple_buckets check with no
explicit numeric parameters runs with rate 10, capacity 100,
max_requests 1000, window_size 3600.  The kwargs dict built by _invoke
always contains the four keys with value None, dict.get then returns that
stored None rather than any default, so every resolved parameter is None;
moreover the check-tool defaults table itself lists max_requests 100 and
window_size 60 for multiple_buckets, not 1000 and 3600. -/
theorem C8_counterexample :
    pyDictGet (invokeKwargs (fun _ => none)) ("rate") (some 10) = none ∧
    getAlgorithmParams ("multiple_buckets") (invokeKwargs (fun _ => none))
      (fun _ => none) =
      [("rate", none), ("capacity", none), ("max_requests", none),
       ("window_size", none)] ∧
    checkToolAlgorithmParams ("multiple_buckets") =
      [("rate", (10 : ℤ)), ("capacity", 100), ("max_requests", 100),
       ("window_size", 60)] := by
  refine ⟨rfl, ?_, rfl⟩
  rfl

/-- C8 amended: when a multiple_buckets check supplies no explicit numeric
parameters, the resolved constructor arguments are all None (kwargs holds
the four keys with value None and dict.get returns the stored None, so
neither the credentials nor the defaults table are reached); the
algorithm-level constructor defaults ⟨10, 100, 1000, 3600⟩ apply only to
arguments omitted entirely, and the check-tool table for multiple_buckets
reads ⟨10, 100, 100, 60⟩. -/
theorem C8_amended (parameters credentials : String → Option ℤ)
    (h1 : parameters ("rate") = none) (h2 : parameters ("capacity") = none)
    (h3 : parameters ("max_requests") = none)
    (h4 : parameters ("window_size") = none) :
    getAlgorithmParams ("multiple_buckets") (invokeKwargs parameters) credentials =
      [("rate", none), ("capacity", none), ("max_requests", none),
       ("window_size", none)] ∧
    mbCtorDefaults =
      { rate := 10, capacity := 100, max_requests := 1000, window_size := 3600 } ∧
    checkToolAlgorithmParams ("multiple_buckets") =
      [("rate", (10 : ℤ)), ("capacity", 100), ("max_requests", 100),
       ("window_size", 60)] := by
  refine ⟨?_, rfl, rfl⟩
  simp only [invokeKwargs, h1, h2, h3, h4]
  rfl

/-- C8 witness: the amended statement with all parameters and credentials
absent. -/
theorem C8_witness :
    getAlgorithmParams ("multiple_buckets") (invokeKwargs (fun _ => none))
      (fun _ => none) =
      [("rate", none), ("capacity", none), ("max_requests", none),
       ("window_size", none)] ∧
    mbCtorDefaults =
      { rate := 10, capacity := 100, max_requests := 1000, window_size := 3600 } ∧
    checkToolAlgorithmParams ("multiple_buckets") =
      [("rate", (10 : ℤ)), ("capacity", 100), ("max_requests", 100),
       ("window_size", 60)] :=
  C8_amended (fun _ => none) (fun _ => none) rfl rfl rfl rfl

/-- C4: a token-bucket check first recomputes
tokens = min(capacity, stored_tokens + (now − last_refill)·rate) (with the
default full bucket when the slot is absent), its verdict has allowed true
exactly when tokens ≥ 1 and remaining = ⌊tokens⌋, an admitted check writes
back exactly tokens − 1 with the refill timestamp set to now, and a denied
check writes nothing.  The hypotheses state that the stored slot satisfies
the reachability invariant (nonnegative tokens, refill timestamp not in the
future) and the parameters are nonnegative. -/
theorem C4 (p : TBParams) (cell : Cell TBData) (now : ℚ)
    (hcap : 0 ≤ p.capacity) (hrate : 0 ≤ p.rate) (hinv : TBInv now cell) :
    tbStatusTokens p cell now =
      min ((p.capacity : ℚ))
        ((((pluginCellGet cell now).1).getD (tbDefault p now)).tokens +
          (now - (((pluginCellGet cell now).1).getD (tbDefault p now)).last_refill)
            * p.rate) ∧
    ((tokenBucketCheck p cell now).1.allowed = .pyStr TRUE_STRING ↔
      1 ≤ tbStatusTokens p cell now) ∧
    (tokenBucketCheck p cell now).1.remaining = ⌊tbStatusTokens p cell now⌋ ∧
    (1 ≤ tbStatusTokens p cell now →
      (tokenBucketCheck p cell now).2 =
        pluginCellSet { tokens := tbStatusTokens p cell now - 1, last_refill := now }
          (some (pyInt (1 / p.rate))) now) ∧
    (¬ 1 ≤ tbStatusTokens p cell now →
      (tokenBucketCheck p cell now).2 = (tokenBucketStatus p cell now).2) := by
  have hkey : pluginCellGet (tokenBucketStatus p cell now).2 now =
      pluginCellGet cell now := by
    rw [tokenBucketStatus_snd]
    exact pluginCellGet_idem cell now
  refine ⟨rfl, ?_, ?_, ?_, ?_⟩
  · rw [tokenBucketCheck_fst]
    exact tokenBucketStatus_allowed_iff p cell now
  · rw [tokenBucketCheck_fst, tokenBucketStatus_fst]
    simp only [buildResponse]
    exact pyInt_of_nonneg (tbStatusTokens_nonneg p cell now hcap hrate hinv)
  · intro h
    have hcond : (tokenBucketStatus p cell now).1.allowed = .pyStr TRUE_STRING :=
      (tokenBucketStatus_allowed_iff p cell now).mpr h
    simp only [tokenBucketCheck, hcond, if_true, hkey]
    rfl
  · intro h
    have hcond : ¬ (tokenBucketStatus p cell now).1.allowed = .pyStr TRUE_STRING :=
      fun hc => h ((tokenBucketStatus_allowed_iff p cell now).mp hc)
    simp only [tokenBucketCheck, hcond, if_false]

/-- C4 witness: the statement at rate 1, capacity 5, empty slot, t = 0,
where the recomputed token count is the full capacity 5. -/
theorem C4_witness :
    (0 : ℤ) ≤ 5 ∧ (0 : ℚ) ≤ 1 ∧
    ((tokenBucketCheck { rate := 1, capacity := 5 } none 0).1.allowed =
        .pyStr TRUE_STRING ↔ 1 ≤ tbStatusTokens { rate := 1, capacity := 5 } none 0) ∧
    (tokenBucketCheck { rate := 1, capacity := 5 } none 0).1.remaining =
      ⌊tbStatusTokens { rate := 1, capacity := 5 } none 0⌋ := by
  have h := C4 { rate := 1, capacity := 5 } none 0 (by norm_num) (by norm_num)
    (by intro d hd; exact absurd hd (by simp [cellData]))
  exact ⟨by norm_num, by norm_num, h.2.1, h.2.2.1⟩

/-- C9 counterexample: the claim states the token-bucket admit TTL is
⌈1/rate⌉ and the leaky-bucket TTL ⌈water/rate⌉.  The code computes
expire = int(1/rate): at rate 2 an admitted token-bucket check computes
int(1/2) = 0, which is falsy in the storage layer, so the state is written
raw with no expiry at all — whereas the claim mandates a ⌈1/2⌉ = 1 second
TTL. -/
theorem C9_counterexample :
    pyInt (1 / (2 : ℚ)) = 0 ∧
    (tokenBucketCheck { rate := 2, capacity := 5 } none 0).2 =
      some (.raw { tokens := 4, last_refill := 0 }) ∧
    ⌈(1 : ℚ) / 2⌉ = 1 := by
  refine ⟨by norm_num [pyInt], ?_, ?_⟩
  · norm_num [tokenBucketCheck, tokenBucketStatus, pluginCellGet, pluginCellSet,
      tbDefault, tbRefill, buildResponse, pyInt, TRUE_STRING]
  · rw [Int.ceil_eq_iff]
    norm_num

/-- C9 amended: on every admitting check, the token bucket writes its state
with expire = int(1/rate) and the leaky bucket with expire = int(water/rate)
for the post-admission water — Python int() truncation toward zero, not the
ceilings the claim states (and a zero result suppresses expiry entirely). -/
theorem C9_amended (p : TBParams) (cT : Cell TBData) (q : LBParams)
    (cL : Cell LBData) (t : ℚ)
    (hT : 1 ≤ tbStatusTokens p cT t)
    (hL : lbStatusWater q cL t < (q.capacity : ℚ)) :
    (tokenBucketCheck p cT t).2 =
      pluginCellSet { tokens := tbStatusTokens p cT t - 1, last_refill := t }
        (some (pyInt (1 / p.rate))) t ∧
    (leakyBucketCheck q cL t).2 =
      pluginCellSet { water := lbStatusWater q cL t + 1, last_leak := t }
        (some (pyInt ((lbStatusWater q cL t + 1) / q.rate))) t :=
  ⟨tokenBucketCheck_snd_of_allowed p cT t hT,
   leakyBucketCheck_snd_of_allowed q cL t hL⟩

/-- C9 witness: the amended statement for admitted checks on the empty
store at t = 0. -/
theorem C9_witness :
    (tokenBucketCheck { rate := 1, capacity := 5 } none 0).2 =
      pluginCellSet
        { tokens := tbStatusTokens { rate := 1, capacity := 5 } none 0 - 1,
          last_refill := 0 }
        (some (pyInt (1 / ({ rate := 1, capacity := 5 } : TBParams).rate))) 0 ∧
    (leakyBucketCheck { rate := 1, capacity := 2 } none 0).2 =
      pluginCellSet
        { water := lbStatusWater { rate := 1, capacity := 2 } none 0 + 1,
          last_leak := 0 }
        (some (pyInt ((lbStatusWater { rate := 1, capacity := 2 } none 0 + 1) /
          ({ rate := 1, capacity := 2 } : LBParams).rate))) 0 :=
  C9_amended { rate := 1, capacity := 5 } none { rate := 1, capacity := 2 } none 0
    (by norm_num [tbStatusTokens, tbRefill, tbDefault, pluginCellGet])
    (by norm_num [lbStatusWater, lbLeak, lbDefault, pluginCellGet])

/-- C10: a set whose expire argument is None or 0 is falsy in Python, so
PluginPersistentStorage stores the raw value with no expiry wrapper and
RedisStorage uses plain set with no backend TTL; a get at any later instant
still returns the value; and the token-bucket TTL int(1/rate) is 0 for
every rate greater than 1, so such state never expires. -/
theorem C10 {α : Type} (s : Store α) (k : String) (v : α) (t t2 : ℚ)
    (rate : ℚ) (hr : 1 < rate) :
    pluginStoreSet s k v none t k = some (.raw v) ∧
    pluginStoreSet s k v (some 0) t k = some (.raw v) ∧
    (pluginStoreGet (pluginStoreSet s k v none t) k t2).1 = some v ∧
    (pluginStoreGet (pluginStoreSet s k v (some 0) t) k t2).1 = some v ∧
    redisCellGet (redisCellSet v none t) t2 = some v ∧
    redisCellGet (redisCellSet v (some 0) t) t2 = some v ∧
    pyInt (1 / rate) = 0 := by
  have h0 : (0 : ℚ) < 1 / rate := by positivity
  have h1 : 1 / rate < 1 := by
    rw [div_lt_one (by linarith)]
    linarith
  refine ⟨?_, ?_, ?_, ?_, rfl, rfl, ?_⟩
  · simp [pluginStoreSet, pluginCellSet]
  · simp [pluginStoreSet, pluginCellSet]
  · simp [pluginStoreGet, pluginStoreSet, pluginCellGet, pluginCellSet]
  · simp [pluginStoreGet, pluginStoreSet, pluginCellGet, pluginCellSet]
  · rw [pyInt_of_nonneg h0.le]
    exact Int.floor_eq_zero_iff.mpr ⟨h0.le, h1⟩

/-- C10 witness: a value stored with expire 0 at t = 0 is still read at
t = 100, and the token-bucket TTL for rate 2 is 0. -/
theorem C10_witness :
    (1 : ℚ) < 2 ∧
    (pluginStoreGet (pluginStoreSet (fun _ => none) ("k") (7 : ℤ) (some 0) 0)
      ("k") 100).1 = some 7 ∧
    pyInt (1 / 2) = 0 := by
  have h := C10 (fun _ => none) ("k") (7 : ℤ) 0 100 2 (by norm_num)
  exact ⟨by norm_num, h.2.2.2.1, h.2.2.2.2.2.2⟩

end SafetyChat
